import Mathlib

/-!
Verification of the BotBro conversational agent (src/bot.py) against its
natural-language specification.

The development shallowly embeds the program's pure core in Lean:

* Python strings are Lean `String`s; every Python string primitive the code
  uses (`str.strip`, `str.replace`, `in`, slicing, `str.split`) is
  re-implemented structurally on `List Char` so that all definitions reduce
  inside the kernel.  Python's default `strip`/`\s` whitespace classes are
  modelled by their ASCII members (the program never feeds non-ASCII
  whitespace to them).
* Python numbers are modelled exactly: `int` as `Int`, `float` as `Rat`
  (exact rational arithmetic; IEEE-754 rounding error, overflow and
  scientific-notation rendering are outside every claim considered here).
* Fallible operations return `Option`; an exception caught by the source's
  `try`/`except` corresponds to propagating `none` to the handler.
* The chat transport, model backend and search provider are external
  collaborators; they enter as oracle fields of an `Env` record, and
  outbound calls are collected in an effect trace.

Note: the source file stores its emoji strings double-encoded (the UTF-8
bytes of each emoji were decoded as cp1252 and re-encoded); the string
literals below reproduce the file's actual characters, mojibake included.
-/

namespace BotBro

/-- Characters stripped by Python's default `str.strip()` and matched by
regex `\s` (ASCII part): space, tab, newline, carriage return, vertical
tab, form feed. -/
def isPyWs (c : Char) : Bool :=
  c = ' ' || c = '\t' || c = '\n' || c = '\x0d' || c = '\x0b' || c = '\x0c'

/-- Model of Python `str.strip()` (no arguments): drop leading and trailing
whitespace. -/
def pyStrip (s : String) : String :=
  ⟨((s.data.dropWhile isPyWs).reverse.dropWhile isPyWs).reverse⟩

/-- Model of Python `str.strip(chars)`: drop leading and trailing characters
belonging to `bad`. -/
def pyStripChars (bad : List Char) (s : String) : String :=
  ⟨((s.data.dropWhile bad.contains).reverse.dropWhile bad.contains).reverse⟩

/-- Model of Python string slicing `s[:n]` (character based, as in Python). -/
def pyTake (n : Nat) (s : String) : String :=
  ⟨s.data.take n⟩

/-- Does `pat` occur as a contiguous subsequence of `hay`?  Models Python's
case-sensitive `pat in hay` on strings. -/
def containsSub (pat : List Char) : List Char → Bool
  | [] => pat.isEmpty
  | c :: cs => pat.isPrefixOf (c :: cs) || containsSub pat cs

/-- Model of Python `pat in s` for strings. -/
def strContains (s pat : String) : Bool :=
  containsSub pat.data s.data

/-- Fuel-driven core of `str.replace`: at each position, if `old` matches,
emit `new` and skip the match, else copy one character.  `old` is assumed
nonempty (the empty case is handled by `pyReplace`). -/
def replaceFuel (old new : List Char) : Nat → List Char → List Char
  | 0, cs => cs
  | _ + 1, [] => []
  | f + 1, c :: cs =>
    if old.isPrefixOf (c :: cs) then
      new ++ replaceFuel old new f (cs.drop (old.length - 1))
    else
      c :: replaceFuel old new f cs

/-- Model of Python `s.replace(old, new)`: replace every non-overlapping
occurrence, scanning left to right.  For empty `old`, Python inserts `new`
between every character and at both ends. -/
def pyReplace (s old new : String) : String :=
  if old.data.isEmpty then
    ⟨new.data ++ s.data.foldr (fun c acc => c :: (new.data ++ acc)) []⟩
  else
    ⟨replaceFuel old.data new.data (s.data.length + 1) s.data⟩

/-- Split on the first occurrence of a separator character; models Python
`s.split(sep, 1)` yielding two parts (or `none` when `sep` is absent). -/
def splitFirst (sep : Char) : List Char → Option (List Char × List Char)
  | [] => none
  | c :: cs =>
    if c = sep then some ([], cs)
    else (splitFirst sep cs).map (fun p => (c :: p.1, p.2))

/-- Whitespace-split with accumulator; models Python `s.split()` (split on
whitespace runs, no empty fields). -/
def wsSplitGo (cur : List Char) : List Char → List (List Char)
  | [] => if cur.isEmpty then [] else [cur.reverse]
  | c :: cs =>
    if isPyWs c then
      if cur.isEmpty then wsSplitGo [] cs else cur.reverse :: wsSplitGo [] cs
    else
      wsSplitGo (c :: cur) cs

/-- Model of Python `s.split()` (no arguments). -/
def wsSplit (cs : List Char) : List (List Char) :=
  wsSplitGo [] cs

/-- Prefix of `cs` before the first occurrence of `pat`; models
`s.split(pat)[0]` for nonempty `pat`. -/
def takeBeforeSub (pat : List Char) : List Char → List Char
  | [] => []
  | c :: cs =>
    if pat.isPrefixOf (c :: cs) then [] else c :: takeBeforeSub pat cs

/-- Numeric value of a list of decimal digit characters. -/
def digitsToNat (ds : List Char) : Nat :=
  ds.foldl (fun a c => a * 10 + (c.toNat - 48)) 0

/-- Model of Python `int(s)` on the inputs reachable here: optional
whitespace, an optional sign, then decimal digits.  (Python additionally
accepts underscore separators and non-ASCII digits; neither can occur in
the schedule data this program feeds to `int`.) -/
def pyIntParse (s : String) : Option Int :=
  match (pyStrip s).data with
  | '+' :: ds =>
    if !ds.isEmpty && ds.all Char.isDigit then some (digitsToNat ds) else none
  | '-' :: ds =>
    if !ds.isEmpty && ds.all Char.isDigit then some (-(digitsToNat ds : Int)) else none
  | ds =>
    if !ds.isEmpty && ds.all Char.isDigit then some (digitsToNat ds) else none

/-! ## Conversation memory

Source: `session_memory = {}` with
`session_memory.setdefault(chat_id, deque(maxlen=10)).append({...})`
in `update_memory` (src/bot.py:48-56).  A `deque(maxlen=10)` append keeps
the most recent 10 elements, discarding from the left. -/

/-- One role-tagged message of a conversation history. -/
structure Turn where
  role : String
  content : String
deriving DecidableEq, Repr

/-- Append to a `deque(maxlen=10)`: add on the right and, if capacity is
exceeded, discard from the left. -/
def dequeAppend (mem : List Turn) (t : Turn) : List Turn :=
  let m := mem ++ [t]
  if 10 < m.length then m.drop (m.length - 10) else m

/-- Model of `update_memory(chat_id, role, content)`: the per-chat map of
histories with one chat's deque appended. -/
def update_memory (mem : Int → List Turn) (chat : Int) (role content : String) :
    Int → List Turn :=
  fun c => if c = chat then dequeAppend (mem c) ⟨role, content⟩ else mem c

/-- Model of `get_memory(chat_id)` (source returns `[]` for unknown chats,
matching the total map with default `[]`). -/
def get_memory (mem : Int → List Turn) (chat : Int) : List Turn :=
  mem chat

/-- The last ten elements of a list (what a capacity-10 FIFO retains). -/
def lastTen (l : List Turn) : List Turn :=
  l.drop (l.length - 10)

/-- Replay a sequence of `(chat, turn)` append events against an initially
empty session memory. -/
def runMemory (events : List (Int × Turn)) : Int → List Turn :=
  events.foldl (fun m e => update_memory m e.1 e.2.role e.2.content) (fun _ => [])

/-- The turns appended for one particular chat, in order. -/
def turnsFor (c : Int) (events : List (Int × Turn)) : List Turn :=
  (events.filter (fun e => e.1 = c)).map (·.2)

/-! ## CALC tool

Source (src/bot.py:74-81):
```
def tool_calc(expr):
    try:
        clean = re.sub(r"[^0-9+\-*/(). ]", "", expr)
        return str(round(eval(compile(ast.parse(clean, mode='eval'), '', 'eval')), 4))
    except Exception:
        return "Math error. ScheiÃŸe."
```
The sanitized string contains only digits, `.`, space, `+ - * / ( )`.
`ast.parse(clean, mode='eval')` applies Python's full expression grammar, but
over this character set the only parsable constructs are: numeric literals
(int and float), the binary operators `+ - * / // **` (the two-character
operators survive sanitization because their constituent characters do), the
unary operators `+ -`, parenthesized expressions, the empty tuple `()`, and
call forms such as `(1)(2)` (argument lists of length at most one, since `,`
is stripped).  Names and attribute accesses are unreachable: identifiers
need letters, and a `.` not inside a numeric literal must be followed by an
identifier.  The embedding expresses this as a parser over exactly the
reachable token set, producing an AST type that additionally carries
`name`/`attr` constructors so their absence is a provable statement.

Numeric semantics: Python ints are `Int`; Python floats are exact rationals.
Division by zero is `none` (caught exception).  Deliberate modelling limits,
all outside the claims under consideration: IEEE-754 rounding of float
literals and arithmetic, float overflow, scientific-notation `str` output,
and irrational results of `**` with fractional exponents (`none` here, a
finite float in Python). -/

/-- Characters kept by the CALC sanitizer regex. -/
def calcAllowed (c : Char) : Bool :=
  c.isDigit || c = '+' || c = '-' || c = '*' || c = '/' ||
  c = '(' || c = ')' || c = '.' || c = ' '

/-- Model of the sanitizer line: remove every character outside
digits, dot, space and the four operator and bracket characters. -/
def calcSanitize (s : String) : String :=
  ⟨s.data.filter calcAllowed⟩

/-- Tokens reachable from the sanitized character set under Python's
tokenizer: numbers, single- and double-character operators, parentheses. -/
inductive CTok
  | num (v : ℚ) (isFloat : Bool)
  | plus | minus | star | slash | dstar | dslash | lpar | rpar
deriving DecidableEq, Repr

/-- Is this a character of a number run (digit or dot)? -/
def isNumChar (c : Char) : Bool :=
  c.isDigit || c = '.'

/-- Rational from an integer, written so the kernel reduces it.  (The
arithmetic on `Rat` in core Lean is marked irreducible, which blocks
`decide`; these explicit `mkRat`-based operations compute the same
normalized rationals and do reduce.) -/
def qInt (n : Int) : ℚ :=
  mkRat n 1

/-- Kernel-reducible rational addition. -/
def qAdd (a b : ℚ) : ℚ :=
  mkRat (a.num * Int.ofNat b.den + b.num * Int.ofNat a.den) (a.den * b.den)

/-- Kernel-reducible rational negation. -/
def qNeg (a : ℚ) : ℚ :=
  mkRat (-a.num) a.den

/-- Kernel-reducible rational subtraction. -/
def qSub (a b : ℚ) : ℚ :=
  qAdd a (qNeg b)

/-- Kernel-reducible rational multiplication. -/
def qMul (a b : ℚ) : ℚ :=
  mkRat (a.num * b.num) (a.den * b.den)

/-- Kernel-reducible rational inverse (zero maps to zero, never reached:
all call sites guard against zero divisors as Python raises there). -/
def qInv (b : ℚ) : ℚ :=
  if b.num < 0 then mkRat (-(Int.ofNat b.den)) (-b.num).toNat
  else mkRat (Int.ofNat b.den) b.num.toNat

/-- Kernel-reducible rational division. -/
def qDiv (a b : ℚ) : ℚ :=
  qMul a (qInv b)

/-- Kernel-reducible rational power by a natural. -/
def qPowNat (q : ℚ) : Nat → ℚ
  | 0 => mkRat 1 1
  | n + 1 => qMul q (qPowNat q n)

/-- Floor of a rational (denominators are positive, so floor is the floor
division of numerator by denominator). -/
def qfloor (q : ℚ) : Int :=
  Int.fdiv q.num q.den

/-- Integer power of a rational with explicit sign handling. -/
def qpowInt (q : ℚ) (n : Int) : ℚ :=
  if 0 ≤ n then qPowNat q n.toNat else qPowNat (qInv q) (-n).toNat

/-- Validate and value a maximal digit-and-dot run as a Python numeric
literal: at most one dot, at least one digit; decimal integer literals may
not have leading zeros (unless all zeros); float literals may. -/
def numLit (run : List Char) : Option (ℚ × Bool) :=
  let dots := (run.filter (· = '.')).length
  let digits := run.filter Char.isDigit
  if digits.isEmpty then none
  else if dots = 0 then
    if run.head? = some '0' && !(run.all (· = '0')) then none
    else some (mkRat (Int.ofNat (digitsToNat run)) 1, false)
  else if dots = 1 then
    let ip := run.takeWhile (· ≠ '.')
    let fp := (run.dropWhile (· ≠ '.')).drop 1
    some (qAdd (mkRat (Int.ofNat (digitsToNat ip)) 1)
      (mkRat (Int.ofNat (digitsToNat fp)) (10 ^ fp.length)), true)
  else none

/-- Fuel-driven tokenizer for the sanitized character set (fuel bounds the
character count; each step consumes at least one character). -/
def calcLex : Nat → List Char → Option (List CTok)
  | 0, _ => none
  | _ + 1, [] => some []
  | f + 1, c :: cs =>
    if c = ' ' then calcLex f cs
    else if c = '*' then
      match cs with
      | '*' :: cs' => (calcLex f cs').map (CTok.dstar :: ·)
      | _ => (calcLex f cs).map (CTok.star :: ·)
    else if c = '/' then
      match cs with
      | '/' :: cs' => (calcLex f cs').map (CTok.dslash :: ·)
      | _ => (calcLex f cs).map (CTok.slash :: ·)
    else if c = '+' then (calcLex f cs).map (CTok.plus :: ·)
    else if c = '-' then (calcLex f cs).map (CTok.minus :: ·)
    else if c = '(' then (calcLex f cs).map (CTok.lpar :: ·)
    else if c = ')' then (calcLex f cs).map (CTok.rpar :: ·)
    else if isNumChar c then
      match numLit ((c :: cs).takeWhile isNumChar) with
      | none => none
      | some (v, isF) =>
        (calcLex f ((c :: cs).dropWhile isNumChar)).map (CTok.num v isF :: ·)
    else none

/-- Binary operators reachable in sanitized CALC input. -/
inductive BOp
  | add | sub | mul | div | floordiv | pow
deriving DecidableEq, Repr

/-- Unary operators reachable in sanitized CALC input. -/
inductive UOp
  | pos | neg
deriving DecidableEq, Repr

/-- Embedded Python expression AST.  `name` and `attr` mirror Python's
`Name` and `Attribute` nodes; they are part of the type so that the theorem
that sanitized CALC input never produces them is a statement, not a
typing accident.  Call argument lists have length at most one and tuples
are empty because `,` cannot survive sanitization. -/
inductive PExpr
  | num (v : ℚ) (isFloat : Bool)
  | binop (op : BOp) (l r : PExpr)
  | unop (op : UOp) (e : PExpr)
  | call (f : PExpr) (arg : Option PExpr)
  | emptyTuple
  | name (id : String)
  | attr (e : PExpr) (fld : String)

mutual

/-- Additive level: `addsub := muldiv (('+'|'-') muldiv)*`. -/
def parseAS : Nat → List CTok → Option (PExpr × List CTok)
  | 0, _ => none
  | f + 1, ts => (parseMD f ts).bind (fun p => parseASL f p.1 p.2)

/-- Left-recursive loop of the additive level. -/
def parseASL : Nat → PExpr → List CTok → Option (PExpr × List CTok)
  | 0, _, _ => none
  | f + 1, acc, ts =>
    match ts with
    | CTok.plus :: ts' =>
      (parseMD f ts').bind (fun p => parseASL f (.binop .add acc p.1) p.2)
    | CTok.minus :: ts' =>
      (parseMD f ts').bind (fun p => parseASL f (.binop .sub acc p.1) p.2)
    | _ => some (acc, ts)

/-- Multiplicative level: `muldiv := unary (('*'|'/'|'//') unary)*`. -/
def parseMD : Nat → List CTok → Option (PExpr × List CTok)
  | 0, _ => none
  | f + 1, ts => (parseU f ts).bind (fun p => parseMDL f p.1 p.2)

/-- Left-recursive loop of the multiplicative level. -/
def parseMDL : Nat → PExpr → List CTok → Option (PExpr × List CTok)
  | 0, _, _ => none
  | f + 1, acc, ts =>
    match ts with
    | CTok.star :: ts' =>
      (parseU f ts').bind (fun p => parseMDL f (.binop .mul acc p.1) p.2)
    | CTok.slash :: ts' =>
      (parseU f ts').bind (fun p => parseMDL f (.binop .div acc p.1) p.2)
    | CTok.dslash :: ts' =>
      (parseU f ts').bind (fun p => parseMDL f (.binop .floordiv acc p.1) p.2)
    | _ => some (acc, ts)

/-- Unary level, per Python `u_expr := power | '-' u_expr | '+' u_expr`. -/
def parseU : Nat → List CTok → Option (PExpr × List CTok)
  | 0, _ => none
  | f + 1, ts =>
    match ts with
    | CTok.minus :: ts' => (parseU f ts').map (fun p => (.unop .neg p.1, p.2))
    | CTok.plus :: ts' => (parseU f ts').map (fun p => (.unop .pos p.1, p.2))
    | _ => parsePow f ts

/-- Power level, per Python `power := primary ['**' u_expr]`
(right-associative, right operand allows unary signs). -/
def parsePow : Nat → List CTok → Option (PExpr × List CTok)
  | 0, _ => none
  | f + 1, ts =>
    (parsePrim f ts).bind (fun p =>
      match p.2 with
      | CTok.dstar :: ts' =>
        (parseU f ts').bind (fun q => some (.binop .pow p.1 q.1, q.2))
      | _ => some p)

/-- Primary level: an atom followed by call trailers. -/
def parsePrim : Nat → List CTok → Option (PExpr × List CTok)
  | 0, _ => none
  | f + 1, ts => (parseAtom f ts).bind (fun p => parseTrail f p.1 p.2)

/-- Call-trailer loop: `(` `)` or `(` expr `)` after a primary. -/
def parseTrail : Nat → PExpr → List CTok → Option (PExpr × List CTok)
  | 0, _, _ => none
  | f + 1, acc, ts =>
    match ts with
    | CTok.lpar :: CTok.rpar :: ts' => parseTrail f (.call acc none) ts'
    | CTok.lpar :: ts' =>
      (parseAS f ts').bind (fun p =>
        match p.2 with
        | CTok.rpar :: ts'' => parseTrail f (.call acc (some p.1)) ts''
        | _ => none)
    | _ => some (acc, ts)

/-- Atom: a number literal, the empty tuple `()`, or a parenthesized
expression. -/
def parseAtom : Nat → List CTok → Option (PExpr × List CTok)
  | 0, _ => none
  | f + 1, ts =>
    match ts with
    | CTok.num v isF :: ts' => some (.num v isF, ts')
    | CTok.lpar :: CTok.rpar :: ts' => some (.emptyTuple, ts')
    | CTok.lpar :: ts' =>
      (parseAS f ts').bind (fun p =>
        match p.2 with
        | CTok.rpar :: ts'' => some (p.1, ts'')
        | _ => none)
    | _ => none

end

/-- Tokenize a (sanitized) CALC string. -/
def calcTokens (s : String) : Option (List CTok) :=
  calcLex (s.data.length + 1) s.data

/-- Model of `ast.parse(clean, mode='eval')`: tokenize, parse one
expression, require all input consumed.  The fuel bound exceeds the
maximum possible recursion (six grammar levels per consumed token). -/
def calcParse (s : String) : Option PExpr :=
  match calcTokens s with
  | none => none
  | some ts =>
    match parseAS (8 * ts.length + 8) ts with
    | some (e, []) => some e
    | _ => none

/-- Runtime values reachable in sanitized CALC input: ints, floats, and the
empty tuple. -/
inductive PVal
  | vint (n : Int)
  | vfloat (q : ℚ)
  | vtup
deriving DecidableEq, Repr

/-- Python binary-operator semantics on reachable values.  `none` models a
raised exception (TypeError, ZeroDivisionError).  Empty-tuple concatenation
and repetition are the only non-numeric successes. -/
def pyBinop (op : BOp) (a b : PVal) : Option PVal :=
  match op, a, b with
  | .add, .vint x, .vint y => some (.vint (x + y))
  | .add, .vint x, .vfloat y => some (.vfloat (qAdd (qInt x) y))
  | .add, .vfloat x, .vint y => some (.vfloat (qAdd x (qInt y)))
  | .add, .vfloat x, .vfloat y => some (.vfloat (qAdd x y))
  | .add, .vtup, .vtup => some .vtup
  | .add, _, _ => none
  | .sub, .vint x, .vint y => some (.vint (x - y))
  | .sub, .vint x, .vfloat y => some (.vfloat (qSub (qInt x) y))
  | .sub, .vfloat x, .vint y => some (.vfloat (qSub x (qInt y)))
  | .sub, .vfloat x, .vfloat y => some (.vfloat (qSub x y))
  | .sub, _, _ => none
  | .mul, .vint x, .vint y => some (.vint (x * y))
  | .mul, .vint x, .vfloat y => some (.vfloat (qMul (qInt x) y))
  | .mul, .vfloat x, .vint y => some (.vfloat (qMul x (qInt y)))
  | .mul, .vfloat x, .vfloat y => some (.vfloat (qMul x y))
  | .mul, .vint _, .vtup => some .vtup
  | .mul, .vtup, .vint _ => some .vtup
  | .mul, _, _ => none
  | .div, .vint x, .vint y =>
    if y = 0 then none else some (.vfloat (qDiv (qInt x) (qInt y)))
  | .div, .vint x, .vfloat y =>
    if y.num = 0 then none else some (.vfloat (qDiv (qInt x) y))
  | .div, .vfloat x, .vint y =>
    if y = 0 then none else some (.vfloat (qDiv x (qInt y)))
  | .div, .vfloat x, .vfloat y =>
    if y.num = 0 then none else some (.vfloat (qDiv x y))
  | .div, _, _ => none
  | .floordiv, .vint x, .vint y =>
    if y = 0 then none else some (.vint (Int.fdiv x y))
  | .floordiv, .vint x, .vfloat y =>
    if y.num = 0 then none else some (.vfloat (qInt (qfloor (qDiv (qInt x) y))))
  | .floordiv, .vfloat x, .vint y =>
    if y = 0 then none else some (.vfloat (qInt (qfloor (qDiv x (qInt y)))))
  | .floordiv, .vfloat x, .vfloat y =>
    if y.num = 0 then none else some (.vfloat (qInt (qfloor (qDiv x y))))
  | .floordiv, _, _ => none
  | .pow, .vint x, .vint y =>
    if 0 ≤ y then some (.vint (x ^ y.toNat))
    else if x = 0 then none
    else some (.vfloat (qpowInt (qInt x) y))
  | .pow, .vint x, .vfloat y =>
    if y.den = 1 then
      if x = 0 ∧ y.num < 0 then none else some (.vfloat (qpowInt (qInt x) y.num))
    else none
  | .pow, .vfloat x, .vint y =>
    if x.num = 0 ∧ y < 0 then none else some (.vfloat (qpowInt x y))
  | .pow, .vfloat x, .vfloat y =>
    if y.den = 1 then
      if x.num = 0 ∧ y.num < 0 then none else some (.vfloat (qpowInt x y.num))
    else none
  | .pow, _, _ => none

/-- Python unary-operator semantics (sign on numbers; TypeError on tuples). -/
def pyUnop (op : UOp) (a : PVal) : Option PVal :=
  match op, a with
  | .pos, .vint x => some (.vint x)
  | .pos, .vfloat x => some (.vfloat x)
  | .neg, .vint x => some (.vint (-x))
  | .neg, .vfloat x => some (.vfloat (-x))
  | _, .vtup => none

/-- Evaluator for the embedded AST; `none` is a raised exception.  Calling
any reachable value raises TypeError, so every `call` node evaluates to
`none`; `name`/`attr` would need a lookup environment but are unreachable
(theorem below), modelled as raising. -/
def evalP : PExpr → Option PVal
  | .num v isF => if isF then some (.vfloat v) else some (.vint v.num)
  | .binop op l r =>
    (evalP l).bind (fun a => (evalP r).bind (fun b => pyBinop op a b))
  | .unop op e => (evalP e).bind (pyUnop op)
  | .call _ _ => none
  | .emptyTuple => some .vtup
  | .name _ => none
  | .attr _ _ => none

/-- Round half to even at the given rational (Python `round` on exact
values). -/
def roundHalfEven (x : ℚ) : Int :=
  let n := qfloor x
  let r := qSub x (qInt n)
  if Rat.blt r (mkRat 1 2) then n
  else if Rat.blt (mkRat 1 2) r then n + 1
  else if n % 2 = 0 then n else n + 1

/-- Model of `round(v, 4)`: identity on ints, half-to-even rounding at four
decimals on floats, TypeError on tuples. -/
def pyRound4 (v : PVal) : Option PVal :=
  match v with
  | .vint n => some (.vint n)
  | .vfloat q => some (.vfloat (mkRat (roundHalfEven (qMul q (qInt 10000))) 10000))
  | .vtup => none

/-- Digit character for a value below ten. -/
def digitChar (n : Nat) : Char :=
  Char.ofNat (48 + n)

/-- Decimal digits of a natural number (fuel-driven so it reduces in the
kernel; fuel `n + 1` always suffices). -/
def natDigits : Nat → Nat → List Char
  | 0, _ => []
  | f + 1, n =>
    if n < 10 then [digitChar n]
    else natDigits f (n / 10) ++ [digitChar (n % 10)]

/-- Decimal string of a natural number. -/
def natStr (n : Nat) : String :=
  ⟨natDigits (n + 1) n⟩

/-- Model of Python `str` on an int. -/
def intStr (n : Int) : String :=
  if n < 0 then "-" ++ natStr n.natAbs else natStr n.toNat

/-- Model of Python `str` on a float whose value is `m / 10^4` (the only
floats reaching `str` in `tool_calc`, after `round(_, 4)`): integer part,
dot, fractional digits with trailing zeros stripped but at least one digit. -/
def floatStr (q : ℚ) : String :=
  let sign : String := if q.num < 0 then "-" else ""
  let a : ℚ := if q.num < 0 then qNeg q else q
  let ip : Nat := (qfloor a).toNat
  let fr : Nat := (qfloor (qMul (qSub a (qInt (qfloor a))) (qInt 10000))).toNat
  let d1 := fr / 1000
  let d2 := fr / 100 % 10
  let d3 := fr / 10 % 10
  let d4 := fr % 10
  let frDigits : List Char :=
    if d4 ≠ 0 then [digitChar d1, digitChar d2, digitChar d3, digitChar d4]
    else if d3 ≠ 0 then [digitChar d1, digitChar d2, digitChar d3]
    else if d2 ≠ 0 then [digitChar d1, digitChar d2]
    else [digitChar d1]
  sign ++ natStr ip ++ "." ++ (⟨frDigits⟩ : String)

/-- Model of Python `str` on a reachable value. -/
def pyStrVal (v : PVal) : String :=
  match v with
  | .vint n => intStr n
  | .vfloat q => floatStr q
  | .vtup => "()"

/-- The fixed CALC failure string (the source file stores the German word
double-encoded; the literal reproduces the file's characters). -/
def calcErr : String := "Math error. ScheiÃŸe."

/-- Model of `tool_calc`: sanitize, parse, evaluate, round to 4 places,
render; any failure yields the fixed error string. -/
def tool_calc (expr : String) : String :=
  match calcParse (calcSanitize expr) with
  | none => calcErr
  | some e =>
    match evalP e with
    | none => calcErr
    | some v =>
      match pyRound4 v with
      | none => calcErr
      | some v' => pyStrVal v'

/-- Check that an AST contains no `name` and no `attr` node (Python `Name`
and `Attribute`). -/
def noNameAttr : PExpr → Bool
  | .num _ _ => true
  | .binop _ l r => noNameAttr l && noNameAttr r
  | .unop _ e => noNameAttr e
  | .call g none => noNameAttr g
  | .call g (some a) => noNameAttr g && noNameAttr a
  | .emptyTuple => true
  | .name _ => false
  | .attr _ _ => false

/-! ## Schedule resolver

Source (src/bot.py:120-231): a fixed CSV dataset `CLEANING_DATA`,
`parse_schedule_date` resolving the first date of a row label against the
current year with a December/January boundary correction, and
`tool_check_schedule` filtering to a `[-2, 30]` day window, sorting by
delta, and rendering the first three rows.

Dates are modelled by a proleptic-Gregorian ordinal, exactly as Python's
`datetime.toordinal`; `(d - now).days` is the floor of the difference
(Python's `timedelta.days` floors), computed in microseconds, the
resolution of `datetime`. -/

/-- A Python `datetime`: date plus microseconds since midnight. -/
structure DateTime where
  year : Int
  month : Nat
  day : Nat
  micro : Nat
deriving DecidableEq, Repr

/-- Gregorian leap-year predicate. -/
def isLeap (y : Int) : Bool :=
  y % 4 = 0 && (!(y % 100 = 0) || y % 400 = 0)

/-- Days in a month of a given year. -/
def daysInMonth (y : Int) (m : Nat) : Nat :=
  if m = 2 then (if isLeap y then 29 else 28)
  else if m = 4 || m = 6 || m = 9 || m = 11 then 30
  else 31

/-- Days in the year before the first of the given month. -/
def daysBeforeMonth (y : Int) (m : Nat) : Nat :=
  (List.range (m - 1)).foldl (fun a i => a + daysInMonth y (i + 1)) 0

/-- Days before January 1 of the given year, day 1 being 0001-01-01
(Python's `date.toordinal` convention). -/
def daysBeforeYear (y : Int) : Int :=
  365 * (y - 1) + Int.fdiv (y - 1) 4 - Int.fdiv (y - 1) 100 + Int.fdiv (y - 1) 400

/-- Proleptic-Gregorian ordinal of a datetime's date. -/
def toOrdinal (d : DateTime) : Int :=
  daysBeforeYear d.year + Int.ofNat (daysBeforeMonth d.year d.month) + Int.ofNat d.day

/-- Microseconds since the epoch of the ordinal scale. -/
def dtMicros (d : DateTime) : Int :=
  toOrdinal d * 86400000000 + Int.ofNat d.micro

/-- Model of `(d - now).days`: Python's `timedelta.days` is the floor of
the signed difference. -/
def deltaDays (d now : DateTime) : Int :=
  Int.fdiv (dtMicros d - dtMicros now) 86400000000

/-- Model of the `datetime(year, month, day)` constructor: validates its
arguments (Python raises `ValueError` otherwise, which
`parse_schedule_date` catches). -/
def mkDatetime (y : Int) (m d : Nat) : Option DateTime :=
  if 1 ≤ y && y ≤ 9999 && 1 ≤ m && m ≤ 12 && 1 ≤ d && d ≤ daysInMonth y m then
    some ⟨y, m, d, 0⟩
  else none

/-- Model of `MONTH_MAP.get(month_str)`. -/
def monthMap (s : String) : Option Nat :=
  if s = "Jan" then some 1
  else if s = "Feb" then some 2
  else if s = "Mar" then some 3
  else if s = "Apr" then some 4
  else if s = "May" then some 5
  else if s = "Jun" then some 6
  else if s = "Jul" then some 7
  else if s = "Aug" then some 8
  else if s = "Sep" then some 9
  else if s = "Oct" then some 10
  else if s = "Nov" then some 11
  else if s = "Dec" then some 12
  else none

/-- Model of `USER_MAP.get(x, x)`: display-name mapping with fallback to
the raw identifier. -/
def userMapGet (s : String) : String :=
  if s = "member3" then "@member3"
  else if s = "member4" then "@member4"
  else if s = "member1" then "@member1"
  else if s = "member2" then "@member2"
  else s

/-- Model of `parse_schedule_date(date_range)` against an explicit "now"
(the source calls `datetime.now()`; both uses — year and boundary check —
see the same clock). -/
def parse_schedule_date (now : DateTime) (dateRange : String) : Option DateTime :=
  match wsSplit (pyStrip ⟨takeBeforeSub (" - ".data) dateRange.data⟩).data with
  | [ms, ds] =>
    match monthMap ⟨ms⟩ with
    | none => none
    | some m =>
      match pyIntParse ⟨ds⟩ with
      | none => none
      | some dayI =>
        match mkDatetime now.year m dayI.toNat with
        | none => none
        | some d =>
          if now.month = 12 ∧ d.month = 1 then
            mkDatetime (now.year + 1) d.month d.day
          else if now.month = 1 ∧ d.month = 12 then
            mkDatetime (now.year - 1) d.month d.day
          else some d
  | _ => none

/-- One row of the cleaning dataset, as produced by the CSV reader:
`dateRange` is the "Date Range" column, `kitchen` the "Kitchen" column,
`wc` the "WC + Floor" column. -/
structure ScheduleRow where
  dateRange : String
  kitchen : String
  wc : String
deriving DecidableEq, Repr

/-- Transcription of the 52 data lines of `CLEANING_DATA` (the CSV has no
quoting or escapes, so `csv.DictReader` splits each line at the commas). -/
def CLEANING_ROWS : List ScheduleRow :=
  [⟨"Jan 03 - 04", "member3", "member4"⟩,
   ⟨"Jan 10 - 11", "member1", "member2"⟩,
   ⟨"Jan 17 - 18", "member4", "member3"⟩,
   ⟨"Jan 24 - 25", "member2", "member1"⟩,
   ⟨"Jan 31 - Feb 01", "member3", "member4"⟩,
   ⟨"Feb 07 - 08", "member1", "member2"⟩,
   ⟨"Feb 14 - 15", "member4", "member3"⟩,
   ⟨"Feb 21 - 22", "member2", "member1"⟩,
   ⟨"Feb 28 - Mar 01", "member3", "member4"⟩,
   ⟨"Mar 07 - 08", "member1", "member2"⟩,
   ⟨"Mar 14 - 15", "member4", "member3"⟩,
   ⟨"Mar 21 - 22", "member2", "member1"⟩,
   ⟨"Mar 28 - 29", "member3", "member4"⟩,
   ⟨"Apr 04 - 05", "member1", "member2"⟩,
   ⟨"Apr 11 - 12", "member4", "member3"⟩,
   ⟨"Apr 18 - 19", "member2", "member1"⟩,
   ⟨"Apr 25 - 26", "member3", "member4"⟩,
   ⟨"May 02 - 03", "member1", "member2"⟩,
   ⟨"May 09 - 10", "member4", "member3"⟩,
   ⟨"May 16 - 17", "member2", "member1"⟩,
   ⟨"May 23 - 24", "member3", "member4"⟩,
   ⟨"May 30 - 31", "member1", "member2"⟩,
   ⟨"Jun 06 - 07", "member4", "member3"⟩,
   ⟨"Jun 13 - 14", "member2", "member1"⟩,
   ⟨"Jun 20 - 21", "member3", "member4"⟩,
   ⟨"Jun 27 - 28", "member1", "member2"⟩,
   ⟨"Jul 04 - 05", "member4", "member3"⟩,
   ⟨"Jul 11 - 12", "member2", "member1"⟩,
   ⟨"Jul 18 - 19", "member3", "member4"⟩,
   ⟨"Jul 25 - 26", "member1", "member2"⟩,
   ⟨"Aug 01 - 02", "member4", "member3"⟩,
   ⟨"Aug 08 - 09", "member2", "member1"⟩,
   ⟨"Aug 15 - 16", "member3", "member4"⟩,
   ⟨"Aug 22 - 23", "member1", "member2"⟩,
   ⟨"Aug 29 - 30", "member4", "member3"⟩,
   ⟨"Sep 05 - 06", "member2", "member1"⟩,
   ⟨"Sep 12 - 13", "member3", "member4"⟩,
   ⟨"Sep 19 - 20", "member1", "member2"⟩,
   ⟨"Sep 26 - 27", "member4", "member3"⟩,
   ⟨"Oct 03 - 04", "member2", "member1"⟩,
   ⟨"Oct 10 - 11", "member3", "member4"⟩,
   ⟨"Oct 17 - 18", "member1", "member2"⟩,
   ⟨"Oct 24 - 25", "member4", "member3"⟩,
   ⟨"Oct 31 - Nov 01", "member2", "member1"⟩,
   ⟨"Nov 07 - 08", "member3", "member4"⟩,
   ⟨"Nov 14 - 15", "member1", "member2"⟩,
   ⟨"Nov 21 - 22", "member4", "member3"⟩,
   ⟨"Nov 28 - 29", "member2", "member1"⟩,
   ⟨"Dec 05 - 06", "member3", "member4"⟩,
   ⟨"Dec 12 - 13", "member1", "member2"⟩,
   ⟨"Dec 19 - 20", "member4", "member3"⟩,
   ⟨"Dec 26 - 27", "member2", "member1"⟩]

/-- The `(delta, row)` pairs for rows whose date parses (rows that fail to
parse are skipped, not errors). -/
def parsedPairs (now : DateTime) : List (Int × ScheduleRow) :=
  CLEANING_ROWS.filterMap (fun r =>
    (parse_schedule_date now r.dateRange).map (fun d => (deltaDays d now, r)))

/-- The pairs kept by the window test `-2 <= delta <= 30`. -/
def keptPairs (now : DateTime) : List (Int × ScheduleRow) :=
  (parsedPairs now).filter (fun p => decide (-2 ≤ p.1) && decide (p.1 ≤ 30))

/-- Insert into a delta-sorted list after all entries with delta less than
or equal (so the overall sort is stable, like Python's `list.sort`). -/
def insertByDelta (x : Int × ScheduleRow) :
    List (Int × ScheduleRow) → List (Int × ScheduleRow)
  | [] => [x]
  | y :: ys => if y.1 ≤ x.1 then y :: insertByDelta x ys else x :: y :: ys

/-- Stable ascending sort by delta, modelling `future.sort(key=lambda x: x[0])`. -/
def sortByDelta (l : List (Int × ScheduleRow)) : List (Int × ScheduleRow) :=
  l.foldl (fun acc x => insertByDelta x acc) []

/-- Header literal of the schedule rendering (mojibake characters exactly
as stored in the source file). -/
def scheduleHeader : String :=
  "ðŸ“‹ **Cleaning Schedule:**\n"

/-- Per-row block of the schedule rendering. -/
def rowBlock (r : ScheduleRow) : String :=
  "\nðŸ—“ **" ++ r.dateRange ++ "**\n   ðŸ³ Kitchen: "
    ++ userMapGet r.kitchen ++ "\n   ðŸš½ WC: "
    ++ userMapGet r.wc ++ "\n"

/-- Model of `tool_check_schedule()` against an explicit "now". -/
def tool_check_schedule (now : DateTime) : String :=
  let future := keptPairs now
  if future.isEmpty then "No upcoming schedule found."
  else
    ((sortByDelta future).take 3).foldl (fun acc p => acc ++ rowBlock p.2)
      scheduleHeader

/-! ## SEARCH tool

Source (src/bot.py:86-115): the provider is external; its raw result
records (dicts with optional `title`, `body`, `snippet` keys) are the
input of the pure formatting core `_search`, modelled here by
`searchFormat`.  The executor/timeout wrapper is modelled by
`SearchOutcome`. -/

/-- A raw search-provider record: the three fields `_search` reads, each
possibly absent. -/
structure RawResult where
  title : Option String
  body : Option String
  snippet : Option String
deriving DecidableEq, Repr

/-- Model of `r.get("title", "")`. -/
def effTitle (r : RawResult) : String :=
  r.title.getD ""

/-- Model of `r.get("body") or r.get("snippet", "")`: the snippet is used
whenever the body is absent or empty (falsy). -/
def effBody (r : RawResult) : String :=
  match r.body with
  | some b => if b = "" then r.snippet.getD "" else b
  | none => r.snippet.getD ""

/-- The deduplication-and-formatting fold of `_search`: skip records with
empty effective body, deduplicate on the first 20 characters of title and
body, and format survivors as `- title: body`. -/
def searchEntries : List RawResult → List (String × String) → List String
  | [], _ => []
  | r :: rs, seen =>
    if effBody r = "" then searchEntries rs seen
    else
      let sig := (pyTake 20 (effTitle r), pyTake 20 (effBody r))
      if seen.contains sig then searchEntries rs seen
      else ("- " ++ effTitle r ++ ": " ++ effBody r) :: searchEntries rs (sig :: seen)

/-- Model of Python `"\n".join`. -/
def joinNl : List String → String
  | [] => ""
  | [s] => s
  | s :: s2 :: rest => s ++ "\n" ++ joinNl (s2 :: rest)

/-- Model of the tail of `_search`: `"\n".join(results[:3])` on a
non-empty result list, else the fixed no-results string. -/
def searchFormat (rs : List RawResult) : String :=
  let entries := searchEntries rs []
  if entries.isEmpty then "No results found. Nichts."
  else joinNl (entries.take 3)

/-- Outcome of the awaited provider call in `tool_search`: a raw result
list, the 10-second timeout, or some other raised failure. -/
inductive SearchOutcome
  | results (rs : List RawResult)
  | timedOut
  | failed (msg : String)
deriving DecidableEq, Repr

/-- Model of `tool_search` given the provider outcome. -/
def tool_search (outcome : SearchOutcome) : String :=
  match outcome with
  | .results rs => searchFormat rs
  | .timedOut => "Search timed out. Internet is kaputt."
  | .failed m => "Search failed: " ++ m

/-! ## Transport adapter and agent loop

Source (src/bot.py:61-69 and 236-362).  The chat transport, language-model
backend, search provider and the transport's edit outcomes are external;
they are oracle fields of `Env`.  Outbound calls are collected as an
`Effect` trace.  A raised exception from `bot.edit_message_text` that is
not a `BadRequest` escapes `safe_edit_message`; inside the loop it is
caught by the handler's outer `except` (apology reply), at final delivery
it is caught by the delivery `try` (fallback send). -/

/-- Outcome of one `bot.edit_message_text` call: success, a `BadRequest`
with its message, or some other raised exception. -/
inductive EditOutcome
  | ok
  | badRequest (msg : String)
  | otherError
deriving DecidableEq, Repr

/-- One outbound interaction with the transport or job queue. -/
inductive Effect
  | sendMsg (chatId : Int) (text : String)
  | editMsg (chatId : Int) (msgId : Nat) (text : String)
  | logWarning (text : String)
  | runOnce (chatId : Int) (delaySecs : ℚ) (reason : String)
deriving DecidableEq, Repr

/-- Model of `safe_edit_message`: a successful edit emits the edit effect;
a `BadRequest` containing "Message is not modified" is silently swallowed;
any other `BadRequest` is logged and swallowed; a non-`BadRequest`
exception propagates (second component `true`). -/
def safe_edit_message (outcome : EditOutcome) (chat : Int) (msgId : Nat)
    (text : String) : List Effect × Bool :=
  match outcome with
  | .ok => ([.editMsg chat msgId text], false)
  | .badRequest m =>
    if strContains m "Message is not modified" then ([], false)
    else ([.logWarning ("Edit failed: " ++ m)], false)
  | .otherError => ([], true)

/-- The external collaborators of one `handle_message` invocation. -/
structure Env where
  botId : Int
  botUsername : String
  statusMsgId : Nat
  backend : List Turn → Option String
  searchOutcome : String → SearchOutcome
  editResults : Nat → EditOutcome
  now : DateTime

/-- Case-insensitive prefix test (ASCII case folding, as the regex engine
applies to this pattern). -/
def ciPrefix : List Char → List Char → Bool
  | [], _ => true
  | _ :: _, [] => false
  | p :: ps, c :: cs => (p.toUpper = c.toUpper) && ciPrefix ps cs

/-- Try the four tool-name alternatives of the regex, in the pattern's
order, at the current position; returns the canonical (uppercased) name
and the remaining characters. -/
def matchToolAt (cs : List Char) : Option (String × List Char) :=
  if ciPrefix ("SEARCH".data) cs then some ("SEARCH", cs.drop 6)
  else if ciPrefix ("CALC".data) cs then some ("CALC", cs.drop 4)
  else if ciPrefix ("REMIND".data) cs then some ("REMIND", cs.drop 6)
  else if ciPrefix ("CHECK_SCHEDULE".data) cs then some ("CHECK_SCHEDULE", cs.drop 14)
  else none

/-- Try the full pattern `ACTION:\s*(SEARCH|CALC|REMIND|CHECK_SCHEDULE)\s*(.*)`
at the current position.  `\s*` is greedy and the tool names start with
non-whitespace, so maximal munch is exact; `(.*)` captures to the end of
the line (`.` does not match a newline). -/
def matchActionAt (cs : List Char) : Option (String × String) :=
  if ciPrefix ("ACTION:".data) cs then
    match matchToolAt ((cs.drop 7).dropWhile isPyWs) with
    | none => none
    | some (tool, rest) =>
      some (tool, ⟨(rest.dropWhile isPyWs).takeWhile (· ≠ '\n')⟩)
  else none

/-- Model of `re.search(...)`: the leftmost position where the whole
pattern matches. -/
def actionSearch : List Char → Option (String × String)
  | [] => none
  | c :: cs =>
    match matchActionAt (c :: cs) with
    | some r => some r
    | none => actionSearch cs

/-- Parse a model reply for an action directive; yields the uppercased
tool name (`match.group(1).upper()`) and the raw second capture group. -/
def findAction (s : String) : Option (String × String) :=
  actionSearch s.data

/-- Model of Python `float(s)` on sign/digits/dot/exponent forms (the
`inf`/`nan` words and underscore separators are not modelled; no claim
involves them).  The value is exact. -/
def pyFloatParse (s : String) : Option ℚ :=
  let cs0 := (pyStrip s).data
  let sgn : Int := if cs0.head? = some '-' then -1 else 1
  let cs1 := if cs0.head? = some '-' || cs0.head? = some '+' then cs0.drop 1 else cs0
  let ip := cs1.takeWhile Char.isDigit
  let rest1 := cs1.drop ip.length
  let contFrac : List Char → Option (List Char × List Char) := fun r =>
    match r with
    | '.' :: r2 => some (r2.takeWhile Char.isDigit, r2.drop (r2.takeWhile Char.isDigit).length)
    | r2 => some ([], r2)
  match contFrac rest1 with
  | none => none
  | some (fp, rest2) =>
    if ip.isEmpty && fp.isEmpty then none
    else
      let contExp : List Char → Option Int := fun r =>
        match r with
        | [] => some 0
        | e :: r2 =>
          if e = 'e' || e = 'E' then
            let esgn : Int := if r2.head? = some '-' then -1 else 1
            let r3 := if r2.head? = some '-' || r2.head? = some '+' then r2.drop 1 else r2
            if !r3.isEmpty && r3.all Char.isDigit then some (esgn * digitsToNat r3)
            else none
          else none
      match contExp rest2 with
      | none => none
      | some ex =>
        some (qMul (qMul (qInt sgn)
          (qAdd (qInt (Int.ofNat (digitsToNat ip)))
            (mkRat (Int.ofNat (digitsToNat fp)) (10 ^ fp.length))))
          (qpowInt (qInt 10) ex))

/-- Digits of the fractional expansion of `r/d` (fuel-bounded; for the
denominators reachable from `pyFloatParse` — products of 2s and 5s — the
expansion terminates well within fuel `d`). -/
def fracDigitsGo : Nat → Nat → Nat → List Char
  | 0, _, _ => []
  | f + 1, r, d =>
    if r = 0 then []
    else digitChar (r * 10 / d) :: fracDigitsGo f (r * 10 % d) d

/-- Model of Python `str` on a float with terminating decimal expansion
(all values this program renders; scientific notation for extreme
magnitudes is not modelled, no claim involves it). -/
def pyFloatRepr (q : ℚ) : String :=
  let sign : String := if q.num < 0 then "-" else ""
  let n := q.num.natAbs
  let d := q.den
  let frac : String := if n % d = 0 then "0" else ⟨fracDigitsGo d (n % d) d⟩
  sign ++ natStr (n / d) ++ "." ++ frac

/-- Model of the REMIND argument handling: strip surrounding quote and
period characters, split once on a space, parse the first field as a
float; the remainder (or "timer") is the reason. -/
def remindParse (arg : String) : Option (ℚ × String) :=
  let cleanArg := pyStripChars ['"', '.'] arg
  match splitFirst ' ' cleanArg.data with
  | none => (pyFloatParse cleanArg).map (fun m => (m, "timer"))
  | some (p0, p1) => (pyFloatParse ⟨p0⟩).map (fun m => (m, (⟨p1⟩ : String)))

/-- Dispatch one parsed directive.  First component: `some obs` is the
observation string, `none` means an exception escaped (a status-edit
failure that is not a `BadRequest`); then the emitted effects and the next
edit index. -/
def dispatchTool (env : Env) (chat : Int) (tool arg : String) (eidx : Nat) :
    Option String × List Effect × Nat :=
  if tool = "SEARCH" then
    match safe_edit_message (env.editResults eidx) chat env.statusMsgId
        ("ðŸ” checking " ++ arg ++ "...") with
    | (e1, true) => (none, e1, eidx + 1)
    | (e1, false) => (some (tool_search (env.searchOutcome arg)), e1, eidx + 1)
  else if tool = "CALC" then (some (tool_calc arg), [], eidx)
  else if tool = "CHECK_SCHEDULE" then
    match safe_edit_message (env.editResults eidx) chat env.statusMsgId
        "ðŸ“… checking roster..." with
    | (e1, true) => (none, e1, eidx + 1)
    | (e1, false) => (some (tool_check_schedule env.now), e1, eidx + 1)
  else if tool = "REMIND" then
    match remindParse arg with
    | some (m, reason) =>
      (some ("Timer set for " ++ pyFloatRepr m ++ " minutes."),
        [.runOnce chat (qMul m (qInt 60)) reason], eidx)
    | none => (some "Format error. Use: REMIND <minutes> <reason>", [], eidx)
  else (some "Unknown tool.", [], eidx)

/-- Result of the bounded tool loop: the final reply (the apology string
if an exception was caught by the handler's `except`), the number of model
calls made, the next edit index, and the accumulated effects. -/
structure LoopRes where
  final : String
  calls : Nat
  editIdx : Nat
  effects : List Effect
deriving DecidableEq, Repr

/-- The fixed failure reply substituted when the loop's `except` catches. -/
def apologyReply : String := "nein... my brain died. try again."

/-- Model of the `for _ in range(MAX_STEPS)` loop of `handle_message`:
call the backend, look for a directive; without one the reply (with any
"FINAL ANSWER:" labels removed, then stripped) terminates the loop; with
one, append the assistant turn, dispatch, append the observation turn, and
continue.  Exhaustion leaves the initial `final_reply = "cooked."`. -/
def loopGo (env : Env) (chat : Int) :
    Nat → List Turn → Nat → Nat → List Effect → LoopRes
  | 0, _, calls, eidx, effs => ⟨"cooked.", calls, eidx, effs⟩
  | fuel + 1, msgs, calls, eidx, effs =>
    match env.backend msgs with
    | none => ⟨apologyReply, calls + 1, eidx, effs⟩
    | some raw =>
      let reply := pyStrip raw
      match findAction reply with
      | none => ⟨pyStrip (pyReplace reply "FINAL ANSWER:" ""), calls + 1, eidx, effs⟩
      | some (tool, argRaw) =>
        match dispatchTool env chat tool (pyStrip argRaw) eidx with
        | (none, e1, eidx') => ⟨apologyReply, calls + 1, eidx', effs ++ e1⟩
        | (some obs, e1, eidx') =>
          loopGo env chat fuel
            (msgs ++ [⟨"assistant", reply⟩, ⟨"user", "OBSERVATION: " ++ obs⟩])
            (calls + 1) eidx' (effs ++ e1)

/-- Model of the directive-leak substitution applied to the final reply. -/
def leakGuard (s : String) : String :=
  if strContains s "ACTION:" then "Done. Alles gut." else s

/-- The fixed persona prompt (verbatim from the source file, mojibake
included). -/
def SYSTEM_PROMPT : String :=
  "\nYou are BotBro, the flatmate AI.\nYou are sarcastic, chill, and slightly German.\n\nPERSONALITY:\n- You are NOT a polite assistant. You are a roommate.\n- German Flavor: Sprinkle words like (genau, natÃ¼rlich, scheiÃŸe, bitte, alles klar, nein, achtung) into your English.\n- Chill: Use emojis ðŸ™„ðŸºðŸ¥¨ðŸ«¡. Lowercase mostly.\n- Roaster: If someone asks a dumb question or tries to dodge cleaning, ROAST THEM. \n- But deep down, you are helpful. Always do the task requested.\n\nTOOLS:\n1. SEARCH <query>\n2. CALC <expr>\n3. REMIND <minutes> <reason>\n   - Example: ACTION: REMIND 30 turn off oven\n4. CHECK_SCHEDULE\n   - Output: ACTION: CHECK_SCHEDULE\n   - Use for ANY cleaning/roster question.\n   - Never search the web for the roster. It is local.\n\nExamples:\nUser: \"Who cleans today?\"\nYou: \"ugh, did you forget again? scheiÃŸe... ACTION: CHECK_SCHEDULE\"\n\nUser: \"What is 2+2?\"\nYou: \"really? you waste my cpu cycles on this? 4. bitte schÃ¶n.\"\n"

/-- The system turn prepended to the working message list. -/
def systemTurn : Turn :=
  ⟨"system", SYSTEM_PROMPT⟩

/-- An inbound Telegram text message as `handle_message` sees it. -/
structure Msg where
  text : Option String
  chatId : Int
  isPrivate : Bool
  replyToFromId : Option Int
deriving DecidableEq, Repr

/-- The process-wide mutable state `handle_message` touches: the
announcement target `ANNOUNCE_CHAT_ID` and the per-chat session memory. -/
structure HState where
  announce : Option Int
  memory : Int → List Turn

/-- The admission test `is_direct`: a one-to-one chat, a reply to the
agent's own message, or a textual mention of the agent's handle. -/
def isDirect (env : Env) (m : Msg) (text : String) : Bool :=
  m.isPrivate || decide (m.replyToFromId = some env.botId) ||
    strContains text ("@" ++ env.botUsername)

/-- The status message literal. -/
def statusText : String := "ðŸ‘€ moment mal..."

/-- Model of `handle_message`: admission, the announcement-target update,
memory append, status send, the bounded loop, leak substitution, and final
delivery (edit with fallback send when the edit raises a non-`BadRequest`
exception; the assistant turn is persisted only when the edit call
returns). -/
def handle_message (env : Env) (upd : Option Msg) (st : HState) :
    HState × List Effect :=
  match upd with
  | none => (st, [])
  | some m =>
    match m.text with
    | none => (st, [])
    | some rawText =>
      if rawText = "" then (st, [])
      else
        let chat := m.chatId
        let text := pyStrip rawText
        if !(isDirect env m text) then (⟨some chat, st.memory⟩, [])
        else
          let mem2 := update_memory st.memory chat "user" text
          let res := loopGo env chat 5 (systemTurn :: get_memory mem2 chat) 0 0 []
          let finalReply := leakGuard res.final
          match safe_edit_message (env.editResults res.editIdx) chat
              env.statusMsgId finalReply with
          | (_, true) =>
            (⟨some chat, mem2⟩,
              Effect.sendMsg chat statusText ::
                (res.effects ++ [Effect.sendMsg chat finalReply]))
          | (effsE, false) =>
            (⟨some chat, update_memory mem2 chat "assistant" finalReply⟩,
              Effect.sendMsg chat statusText :: (res.effects ++ effsE))

/-- Split a string at newline characters (Python `s.split("\n")`,
the inverse of `"\n".join` on newline-free parts). -/
def linesGo (cur : List Char) : List Char → List String
  | [] => [(⟨cur.reverse⟩ : String)]
  | c :: cs =>
    if c = '\n' then (⟨cur.reverse⟩ : String) :: linesGo [] cs
    else linesGo (c :: cur) cs

/-- The lines of a string. -/
def linesOf (s : String) : List String :=
  linesGo [] s.data

/-- A concrete environment whose backend always emits an action directive
and whose transport edits always succeed. -/
def cEnvAction : Env :=
  Env.mk 99 "botbro" 7 (fun _ => some "ACTION: CALC 1+1")
    (fun _ => SearchOutcome.timedOut) (fun _ => EditOutcome.ok) ⟨2025, 1, 5, 0⟩

/-- A concrete environment whose backend replies with plain text and whose
transport edits always succeed. -/
def cEnvPlain : Env :=
  Env.mk 99 "botbro" 7 (fun _ => some "ok final")
    (fun _ => SearchOutcome.timedOut) (fun _ => EditOutcome.ok) ⟨2025, 1, 5, 0⟩

/-- A concrete environment whose transport edits always fail with a
`BadRequest` other than "Message is not modified". -/
def cEnvBadEdit : Env :=
  Env.mk 99 "botbro" 7 (fun _ => some "ok final")
    (fun _ => SearchOutcome.timedOut)
    (fun _ => EditOutcome.badRequest "Chat not found") ⟨2025, 1, 5, 0⟩

/-- The loop result produced inside `handle_message` for an admitted
message (used to state delivery-behavior theorems). -/
def loopOf (env : Env) (m : Msg) (st : HState) (rawText : String) : LoopRes :=
  loopGo env m.chatId 5
    (systemTurn ::
      get_memory (update_memory st.memory m.chatId "user" (pyStrip rawText)) m.chatId)
    0 0 []


theorem lastTen_of_le {l : List Turn} (h : l.length ≤ 10) : lastTen l = l := by
  unfold lastTen
  have : l.length - 10 = 0 := by omega
  rw [this, List.drop_zero]

theorem lastTen_length (l : List Turn) : (lastTen l).length ≤ 10 := by
  unfold lastTen
  rw [List.length_drop]
  omega

theorem dequeAppend_eq_lastTen (mem : List Turn) (t : Turn)
    (h : mem.length ≤ 10) : dequeAppend mem t = lastTen (mem ++ [t]) := by
  unfold dequeAppend lastTen
  simp only [List.length_append, List.length_cons, List.length_nil]
  by_cases h10 : 10 < mem.length + 1
  · simp [h10]
  · simp only [h10, if_false]
    have : mem.length + 1 - 10 = 0 := by omega
    rw [this, List.drop_zero]

theorem lastTen_append_left (x y : List Turn) :
    lastTen (lastTen x ++ y) = lastTen (x ++ y) := by
  unfold lastTen
  rw [List.drop_append_eq_append_drop, List.drop_drop,
    List.drop_append_eq_append_drop]
  simp only [List.length_append, List.length_drop]
  congr 1
  · congr 1
    omega
  · congr 1
    omega

theorem runMemory_go (events : List (Int × Turn)) :
    ∀ (m : Int → List Turn), (∀ c, (m c).length ≤ 10) →
    ∀ c, events.foldl (fun m e => update_memory m e.1 e.2.role e.2.content) m c
      = lastTen (m c ++ turnsFor c events) := by
  induction events with
  | nil =>
    intro m hm c
    simp only [List.foldl_nil, turnsFor, List.filter_nil, List.map_nil,
      List.append_nil]
    exact (lastTen_of_le (hm c)).symm
  | cons e es ih =>
    intro m hm c
    have hstep : ∀ c', ((update_memory m e.1 e.2.role e.2.content) c').length ≤ 10 := by
      intro c'
      unfold update_memory
      by_cases hc : c' = e.1
      · simp only [hc, if_true]
        rw [dequeAppend_eq_lastTen _ _ (hm e.1)]
        exact lastTen_length _
      · simp only [hc, if_false]
        exact hm c'
    simp only [List.foldl_cons]
    rw [ih _ hstep c]
    by_cases hc : c = e.1
    · unfold update_memory
      simp only [hc, eq_self_iff_true, if_true]
      rw [dequeAppend_eq_lastTen _ _ (hm e.1)]
      rw [lastTen_append_left]
      unfold turnsFor
      simp only [List.filter_cons, decide_eq_true_eq, eq_self_iff_true, if_true,
        List.map_cons, List.append_assoc, List.singleton_append]
    · unfold update_memory turnsFor
      simp only [if_neg hc]
      have hne : ¬ e.1 = c := fun h => hc h.symm
      simp only [List.filter_cons, decide_eq_true_eq, hne, if_false]

/-- C3: for every chat identifier and every sequence of appends, the stored
history never holds more than 10 turns, and it always equals the last ten
turns appended for that chat — i.e. the oldest turn is the one evicted
(FIFO order is preserved).  Every reachable memory state is `runMemory` of
some event sequence, so this covers all intermediate states as well. -/
theorem memory_capacity_fifo (events : List (Int × Turn)) (c : Int) :
    (runMemory events c).length ≤ 10 ∧
    runMemory events c = lastTen (turnsFor c events) := by
  have h := runMemory_go events (fun _ => []) (fun _ => by simp) c
  unfold runMemory
  constructor
  · rw [h]
    simp only [List.nil_append]
    exact lastTen_length _
  · rw [h]
    simp only [List.nil_append]

theorem parse_noF (f : Nat) :
    (∀ ts e r, parseAS f ts = some (e, r) → noNameAttr e = true) ∧
    (∀ acc ts e r, noNameAttr acc = true → parseASL f acc ts = some (e, r) →
      noNameAttr e = true) ∧
    (∀ ts e r, parseMD f ts = some (e, r) → noNameAttr e = true) ∧
    (∀ acc ts e r, noNameAttr acc = true → parseMDL f acc ts = some (e, r) →
      noNameAttr e = true) ∧
    (∀ ts e r, parseU f ts = some (e, r) → noNameAttr e = true) ∧
    (∀ ts e r, parsePow f ts = some (e, r) → noNameAttr e = true) ∧
    (∀ ts e r, parsePrim f ts = some (e, r) → noNameAttr e = true) ∧
    (∀ acc ts e r, noNameAttr acc = true → parseTrail f acc ts = some (e, r) →
      noNameAttr e = true) ∧
    (∀ ts e r, parseAtom f ts = some (e, r) → noNameAttr e = true) := by
  induction f with
  | zero =>
    refine ⟨?_, ?_, ?_, ?_, ?_, ?_, ?_, ?_, ?_⟩ <;> intros <;>
      simp_all [parseAS, parseASL, parseMD, parseMDL, parseU, parsePow,
        parsePrim, parseTrail, parseAtom]
  | succ f ih =>
    obtain ⟨ihAS, ihASL, ihMD, ihMDL, ihU, ihPow, ihPrim, ihTrail, ihAtom⟩ := ih
    have hAS : ∀ ts e r, parseAS (f + 1) ts = some (e, r) → noNameAttr e = true := by
      intro ts e r h
      simp only [parseAS, Option.bind_eq_some] at h
      obtain ⟨p, hp, h2⟩ := h
      exact ihASL p.1 p.2 e r (ihMD ts p.1 p.2 hp) h2
    have hASL : ∀ acc ts e r, noNameAttr acc = true →
        parseASL (f + 1) acc ts = some (e, r) → noNameAttr e = true := by
      intro acc ts e r hacc h
      cases ts with
      | nil =>
        simp only [parseASL, Option.some.injEq, Prod.mk.injEq] at h
        exact h.1 ▸ hacc
      | cons c ts' =>
        cases c
        case plus =>
          simp only [parseASL, Option.bind_eq_some] at h
          obtain ⟨p, hp, h2⟩ := h
          refine ihASL _ _ _ _ ?_ h2
          simp only [noNameAttr, Bool.and_eq_true]
          exact ⟨hacc, ihMD _ _ _ hp⟩
        case minus =>
          simp only [parseASL, Option.bind_eq_some] at h
          obtain ⟨p, hp, h2⟩ := h
          refine ihASL _ _ _ _ ?_ h2
          simp only [noNameAttr, Bool.and_eq_true]
          exact ⟨hacc, ihMD _ _ _ hp⟩
        all_goals
          simp only [parseASL, Option.some.injEq, Prod.mk.injEq] at h
          exact h.1 ▸ hacc
    have hMD : ∀ ts e r, parseMD (f + 1) ts = some (e, r) → noNameAttr e = true := by
      intro ts e r h
      simp only [parseMD, Option.bind_eq_some] at h
      obtain ⟨p, hp, h2⟩ := h
      exact ihMDL p.1 p.2 e r (ihU ts p.1 p.2 hp) h2
    have hMDL : ∀ acc ts e r, noNameAttr acc = true →
        parseMDL (f + 1) acc ts = some (e, r) → noNameAttr e = true := by
      intro acc ts e r hacc h
      cases ts with
      | nil =>
        simp only [parseMDL, Option.some.injEq, Prod.mk.injEq] at h
        exact h.1 ▸ hacc
      | cons c ts' =>
        cases c
        case star =>
          simp only [parseMDL, Option.bind_eq_some] at h
          obtain ⟨p, hp, h2⟩ := h
          refine ihMDL _ _ _ _ ?_ h2
          simp only [noNameAttr, Bool.and_eq_true]
          exact ⟨hacc, ihU _ _ _ hp⟩
        case slash =>
          simp only [parseMDL, Option.bind_eq_some] at h
          obtain ⟨p, hp, h2⟩ := h
          refine ihMDL _ _ _ _ ?_ h2
          simp only [noNameAttr, Bool.and_eq_true]
          exact ⟨hacc, ihU _ _ _ hp⟩
        case dslash =>
          simp only [parseMDL, Option.bind_eq_some] at h
          obtain ⟨p, hp, h2⟩ := h
          refine ihMDL _ _ _ _ ?_ h2
          simp only [noNameAttr, Bool.and_eq_true]
          exact ⟨hacc, ihU _ _ _ hp⟩
        all_goals
          simp only [parseMDL, Option.some.injEq, Prod.mk.injEq] at h
          exact h.1 ▸ hacc
    have hU : ∀ ts e r, parseU (f + 1) ts = some (e, r) → noNameAttr e = true := by
      intro ts e r h
      cases ts with
      | nil =>
        simp only [parseU] at h
        exact ihPow _ _ _ h
      | cons c ts' =>
        cases c
        case minus =>
          simp only [parseU, Option.map_eq_some'] at h
          obtain ⟨p, hp, h2⟩ := h
          have he : e = .unop .neg p.1 := by
            have := congrArg Prod.fst h2
            exact this.symm
          rw [he]
          simpa only [noNameAttr] using ihU _ _ _ hp
        case plus =>
          simp only [parseU, Option.map_eq_some'] at h
          obtain ⟨p, hp, h2⟩ := h
          have he : e = .unop .pos p.1 := by
            have := congrArg Prod.fst h2
            exact this.symm
          rw [he]
          simpa only [noNameAttr] using ihU _ _ _ hp
        all_goals
          simp only [parseU] at h
          exact ihPow _ _ _ h
    have hPow : ∀ ts e r, parsePow (f + 1) ts = some (e, r) → noNameAttr e = true := by
      intro ts e r h
      simp only [parsePow, Option.bind_eq_some] at h
      obtain ⟨p, hp, h2⟩ := h
      obtain ⟨pe, pts⟩ := p
      have hpe : noNameAttr pe = true := ihPrim _ _ _ hp
      cases pts with
      | nil =>
        simp only [Option.some.injEq, Prod.mk.injEq] at h2
        exact h2.1 ▸ hpe
      | cons c ts' =>
        cases c
        case dstar =>
          simp only [Option.bind_eq_some] at h2
          obtain ⟨q, hq, h3⟩ := h2
          simp only [Option.some.injEq, Prod.mk.injEq] at h3
          rw [← h3.1]
          simp only [noNameAttr, Bool.and_eq_true]
          exact ⟨hpe, ihU _ _ _ hq⟩
        all_goals
          simp only [Option.some.injEq, Prod.mk.injEq] at h2
          exact h2.1 ▸ hpe
    have hPrim : ∀ ts e r, parsePrim (f + 1) ts = some (e, r) → noNameAttr e = true := by
      intro ts e r h
      simp only [parsePrim, Option.bind_eq_some] at h
      obtain ⟨p, hp, h2⟩ := h
      exact ihTrail p.1 p.2 e r (ihAtom ts p.1 p.2 hp) h2
    have hTrail : ∀ acc ts e r, noNameAttr acc = true →
        parseTrail (f + 1) acc ts = some (e, r) → noNameAttr e = true := by
      intro acc ts e r hacc h
      cases ts with
      | nil =>
        simp only [parseTrail, Option.some.injEq, Prod.mk.injEq] at h
        exact h.1 ▸ hacc
      | cons c ts' =>
        cases c
        case lpar =>
          cases ts' with
          | nil =>
            simp only [parseTrail, Option.bind_eq_some] at h
            obtain ⟨p, hp, h2⟩ := h
            obtain ⟨pe, pts⟩ := p
            cases pts with
            | nil => simp at h2
            | cons c2 ts'' =>
              cases c2
              case rpar =>
                refine ihTrail _ _ _ _ ?_ h2
                simp only [noNameAttr, Bool.and_eq_true]
                exact ⟨hacc, ihAS _ _ _ hp⟩
              all_goals simp at h2
          | cons c2 ts'' =>
            cases c2
            case rpar =>
              simp only [parseTrail] at h
              refine ihTrail _ _ _ _ ?_ h
              simpa only [noNameAttr] using hacc
            all_goals
              simp only [parseTrail, Option.bind_eq_some] at h
              obtain ⟨p, hp, h2⟩ := h
              obtain ⟨pe, pts⟩ := p
              cases pts with
              | nil => simp at h2
              | cons c3 ts3 =>
                cases c3
                case rpar =>
                  refine ihTrail _ _ _ _ ?_ h2
                  simp only [noNameAttr, Bool.and_eq_true]
                  exact ⟨hacc, ihAS _ _ _ hp⟩
                all_goals simp at h2
        all_goals
          simp only [parseTrail, Option.some.injEq, Prod.mk.injEq] at h
          exact h.1 ▸ hacc
    have hAtom : ∀ ts e r, parseAtom (f + 1) ts = some (e, r) → noNameAttr e = true := by
      intro ts e r h
      cases ts with
      | nil => simp [parseAtom] at h
      | cons c ts' =>
        cases c
        case num v isF =>
          simp only [parseAtom, Option.some.injEq, Prod.mk.injEq] at h
          rw [← h.1]
          rfl
        case lpar =>
          cases ts' with
          | nil =>
            simp only [parseAtom, Option.bind_eq_some] at h
            obtain ⟨p, hp, h2⟩ := h
            obtain ⟨pe, pts⟩ := p
            cases pts with
            | nil => simp at h2
            | cons c2 ts'' =>
              cases c2
              case rpar =>
                simp only [Option.some.injEq, Prod.mk.injEq] at h2
                exact h2.1 ▸ ihAS _ _ _ hp
              all_goals simp at h2
          | cons c2 ts'' =>
            cases c2
            case rpar =>
              simp only [parseAtom, Option.some.injEq, Prod.mk.injEq] at h
              rw [← h.1]
              rfl
            all_goals
              simp only [parseAtom, Option.bind_eq_some] at h
              obtain ⟨p, hp, h2⟩ := h
              obtain ⟨pe, pts⟩ := p
              cases pts with
              | nil => simp at h2
              | cons c3 ts3 =>
                cases c3
                case rpar =>
                  simp only [Option.some.injEq, Prod.mk.injEq] at h2
                  exact h2.1 ▸ ihAS _ _ _ hp
                all_goals simp at h2
        all_goals simp [parseAtom] at h
    exact ⟨hAS, hASL, hMD, hMDL, hU, hPow, hPrim, hTrail, hAtom⟩

theorem calcParse_noNameAttr (s : String) (e : PExpr)
    (h : calcParse s = some e) : noNameAttr e = true := by
  unfold calcParse at h
  cases hts : calcTokens s with
  | none => rw [hts] at h; simp at h
  | some ts =>
    rw [hts] at h
    have h2 : (match parseAS (8 * ts.length + 8) ts with
        | some (x, []) => some x
        | _ => none) = some e := h
    clear h
    cases hp : parseAS (8 * ts.length + 8) ts with
    | none => rw [hp] at h2; simp at h2
    | some p =>
      rw [hp] at h2
      obtain ⟨pe, pts⟩ := p
      cases pts with
      | nil =>
        simp only [Option.some.injEq] at h2
        exact h2 ▸ (parse_noF (8 * ts.length + 8)).1 ts pe [] hp
      | cons c ts' => simp at h2

/-- C2 (counterexample): the claim says no operator outside `+ - * /` — in
particular no exponentiation — is ever evaluated, but the sanitizer keeps
each `*` of `**`, so the input `2**10` parses as an exponentiation and CALC
evaluates it successfully to `1024` (not the error string). -/
theorem calc_pow_evaluated :
    calcParse (calcSanitize "2**10")
      = some (.binop .pow (.num (mkRat 2 1) false) (.num (mkRat 10 1) false)) ∧
    tool_calc "2**10" = "1024" ∧
    "1024" ≠ calcErr :=
  ⟨rfl, by decide, by decide⟩

/-- C2 (amended): after sanitization every character is in the allowed set
(digits, dot, space, `+ - * / ( )`); every expression CALC parses is free
of names and attribute accesses (so only numeric literals, the binary
operators `+ - * / // **`, unary `+ -`, parentheses, empty tuples and
degenerate call forms remain); and every call form fails evaluation, since
no callable value exists in the reachable value space. -/
theorem calc_sanitized_grammar :
    (∀ (s : String), ∀ c ∈ (calcSanitize s).data, calcAllowed c = true) ∧
    (∀ (s : String) (e : PExpr), calcParse (calcSanitize s) = some e →
      noNameAttr e = true) ∧
    (∀ (g : PExpr) (arg : Option PExpr), evalP (.call g arg) = none) := by
  refine ⟨?_, ?_, ?_⟩
  · intro s c hc
    exact (List.mem_filter.mp hc).2
  · intro s e h
    exact calcParse_noNameAttr _ e h
  · intro g arg
    rfl

/-- Witness for `calc_sanitized_grammar` at concrete inputs. -/
theorem calc_sanitized_grammar_witness :
    calcAllowed '7' = true ∧
    noNameAttr (PExpr.binop .add (.num (mkRat 2 1) false) (.num (mkRat 3 1) false))
      = true ∧
    evalP (PExpr.call (.num (mkRat 1 1) false) (some (.num (mkRat 2 1) false)))
      = none :=
  ⟨calc_sanitized_grammar.1 "7" '7' (by decide),
   calc_sanitized_grammar.2.1 "2+3" _ (by rfl),
   calc_sanitized_grammar.2.2 _ _⟩

/-- C7: CALC is total — for every input the result is either the single
fixed error string or the rendering of a numeric value, and in particular
division by zero (`10/0`) and input whose sanitization leaves no
expression (`import os`) both return the fixed error string; the
`try`/`except Exception` wrapper means no exception escapes the tool
boundary. -/
theorem calc_total_error_handling :
    (∀ s : String, tool_calc s = calcErr ∨ ∃ v : PVal, tool_calc s = pyStrVal v) ∧
    tool_calc "10/0" = calcErr ∧
    tool_calc "import os" = calcErr := by
  refine ⟨?_, by decide, by decide⟩
  intro s
  rcases hp : calcParse (calcSanitize s) with _ | e
  · left
    unfold tool_calc
    rw [hp]
  · have h1 : tool_calc s = (match evalP e with
        | none => calcErr
        | some v =>
          match pyRound4 v with
          | none => calcErr
          | some v' => pyStrVal v') := by
      unfold tool_calc
      rw [hp]
    rcases hv : evalP e with _ | v
    · rw [hv] at h1
      exact Or.inl h1
    · rw [hv] at h1
      have h2 : tool_calc s = (match pyRound4 v with
          | none => calcErr
          | some v' => pyStrVal v') := h1
      rcases hr : pyRound4 v with _ | v'
      · rw [hr] at h2
        exact Or.inl h2
      · rw [hr] at h2
        exact Or.inr ⟨v', h2⟩

theorem mem_insertByDelta {x a : Int × ScheduleRow} {l : List (Int × ScheduleRow)}
    (h : a ∈ insertByDelta x l) : a = x ∨ a ∈ l := by
  induction l with
  | nil => simpa [insertByDelta] using h
  | cons y ys ih =>
    by_cases hle : y.1 ≤ x.1
    · rw [insertByDelta, if_pos hle] at h
      rcases List.mem_cons.mp h with h1 | h2
      · right; exact h1 ▸ List.mem_cons_self y ys
      · rcases ih h2 with h3 | h4
        · left; exact h3
        · right; exact List.mem_cons_of_mem y h4
    · rw [insertByDelta, if_neg hle] at h
      rcases List.mem_cons.mp h with h1 | h2
      · left; exact h1
      · right; exact h2

theorem insertByDelta_sorted {x : Int × ScheduleRow} {l : List (Int × ScheduleRow)}
    (h : l.Pairwise (fun a b => a.1 ≤ b.1)) :
    (insertByDelta x l).Pairwise (fun a b => a.1 ≤ b.1) := by
  induction l with
  | nil => simp [insertByDelta]
  | cons y ys ih =>
    rw [List.pairwise_cons] at h
    obtain ⟨hy, hys⟩ := h
    by_cases hle : y.1 ≤ x.1
    · rw [insertByDelta, if_pos hle, List.pairwise_cons]
      refine ⟨?_, ih hys⟩
      intro a ha
      rcases mem_insertByDelta ha with h1 | h2
      · exact h1 ▸ hle
      · exact hy a h2
    · rw [insertByDelta, if_neg hle, List.pairwise_cons]
      refine ⟨?_, List.pairwise_cons.mpr ⟨hy, hys⟩⟩
      intro a ha
      rcases List.mem_cons.mp ha with h1 | h2
      · exact h1 ▸ Int.le_of_lt (Int.lt_of_not_ge hle)
      · exact le_trans (Int.le_of_lt (Int.lt_of_not_ge hle)) (hy a h2)

theorem sortByDelta_go_sorted (l : List (Int × ScheduleRow)) :
    ∀ acc, acc.Pairwise (fun a b => a.1 ≤ b.1) →
      (l.foldl (fun acc x => insertByDelta x acc) acc).Pairwise
        (fun a b => a.1 ≤ b.1) := by
  induction l with
  | nil => intro acc h; simpa using h
  | cons x xs ih =>
    intro acc h
    exact ih _ (insertByDelta_sorted h)

theorem sortByDelta_sorted (l : List (Int × ScheduleRow)) :
    (sortByDelta l).Pairwise (fun a b => a.1 ≤ b.1) :=
  sortByDelta_go_sorted l [] (List.Pairwise.nil)

theorem mkDatetime_inv {y : Int} {m d : Nat} {dt : DateTime}
    (h : mkDatetime y m d = some dt) : dt = ⟨y, m, d, 0⟩ := by
  unfold mkDatetime at h
  split at h
  · exact (Option.some.injEq _ _ ▸ h).symm
  · exact absurd h (by simp)

/-- C8: for every row label and every "now" with which the parse succeeds,
the parsed date's year is the current year except at the year boundaries:
December "now" with a January row uses the next year, January "now" with a
December row uses the previous year.  In particular "Jan 03 - 04" parsed
with now = Dec 28, 2024 resolves to January 3, 2025. -/
theorem schedule_year_boundary :
    (∀ (dateRange : String) (now d : DateTime),
      parse_schedule_date now dateRange = some d →
      d.year = (if now.month = 12 ∧ d.month = 1 then now.year + 1
        else if now.month = 1 ∧ d.month = 12 then now.year - 1
        else now.year)) ∧
    parse_schedule_date ⟨2024, 12, 28, 0⟩ "Jan 03 - 04"
      = some ⟨2025, 1, 3, 0⟩ := by
  constructor
  · intro dateRange now d h
    unfold parse_schedule_date at h
    rcases hsplit : wsSplit (pyStrip ⟨takeBeforeSub (" - ".data) dateRange.data⟩).data
      with _ | ⟨ms, _ | ⟨ds, _ | _⟩⟩ <;> rw [hsplit] at h <;> try simp at h
    rcases hm : monthMap ⟨ms⟩ with _ | m <;> rw [hm] at h <;> try simp at h
    rcases hday : pyIntParse ⟨ds⟩ with _ | dayI <;> rw [hday] at h <;> try simp at h
    rcases hmk : mkDatetime now.year m dayI.toNat with _ | d0 <;>
      rw [hmk] at h <;> try simp at h
    have hd0 : d0 = ⟨now.year, m, dayI.toNat, 0⟩ := mkDatetime_inv hmk
    by_cases hc1 : now.month = 12 ∧ d0.month = 1
    · rw [if_pos hc1] at h
      have hd : d = ⟨now.year + 1, d0.month, d0.day, 0⟩ := mkDatetime_inv h
      have hdm : d.month = 1 := by rw [hd]; exact hc1.2
      rw [if_pos ⟨hc1.1, hdm⟩]
      rw [hd]
    · rw [if_neg hc1] at h
      by_cases hc2 : now.month = 1 ∧ d0.month = 12
      · rw [if_pos hc2] at h
        have hd : d = ⟨now.year - 1, d0.month, d0.day, 0⟩ := mkDatetime_inv h
        have hdm : d.month = 12 := by rw [hd]; exact hc2.2
        have hnot1 : ¬(now.month = 12 ∧ d.month = 1) := by
          intro hcon
          rw [hdm] at hcon
          omega
        rw [if_neg hnot1, if_pos ⟨hc2.1, hdm⟩, hd]
      · rw [if_neg hc2] at h
        have hd : d = d0 := by
          simpa using h.symm
        have hdm : d.month = d0.month := by rw [hd]
        rw [if_neg (hdm ▸ hc1), if_neg (hdm ▸ hc2), hd, hd0]
  · decide

/-- Witness for `schedule_year_boundary` at the concrete year-boundary
instance of the claim. -/
theorem schedule_year_boundary_witness :
    (⟨2025, 1, 3, 0⟩ : DateTime).year
      = (if (⟨2024, 12, 28, 0⟩ : DateTime).month = 12 ∧
            (⟨2025, 1, 3, 0⟩ : DateTime).month = 1
          then (⟨2024, 12, 28, 0⟩ : DateTime).year + 1
          else if (⟨2024, 12, 28, 0⟩ : DateTime).month = 1 ∧
              (⟨2025, 1, 3, 0⟩ : DateTime).month = 12
            then (⟨2024, 12, 28, 0⟩ : DateTime).year - 1
            else (⟨2024, 12, 28, 0⟩ : DateTime).year) :=
  schedule_year_boundary.1 "Jan 03 - 04" ⟨2024, 12, 28, 0⟩ ⟨2025, 1, 3, 0⟩
    (by decide)

set_option maxRecDepth 10000 in
/-- C5: for every "now" the kept rows are exactly the parsed rows whose
day-delta lies in `[-2, 30]`; the rendered order is ascending by delta and
only the first three rows are rendered; and for now = Jan 5, 2025
(midnight) the kept deltas are `[-2, 5, 12, 19, 26]` — so the "Jan 03 - 04"
row is surfaced together with the next two upcoming rows — and the full
output is the fixed string below (determinism is inherent: the resolver is
a pure function of "now"). -/
theorem schedule_window_jan5 :
    (∀ (now : DateTime) (p : Int × ScheduleRow),
      p ∈ keptPairs now ↔ p ∈ parsedPairs now ∧ -2 ≤ p.1 ∧ p.1 ≤ 30) ∧
    (∀ now : DateTime,
      (sortByDelta (keptPairs now)).Pairwise (fun a b => a.1 ≤ b.1)) ∧
    (keptPairs ⟨2025, 1, 5, 0⟩).map Prod.fst = [-2, 5, 12, 19, 26] ∧
    tool_check_schedule ⟨2025, 1, 5, 0⟩
      = "ðŸ“‹ **Cleaning Schedule:**\n\nðŸ—“ **Jan 03 - 04**\n   ðŸ³ Kitchen: @member3\n   ðŸš½ WC: @member4\n\nðŸ—“ **Jan 10 - 11**\n   ðŸ³ Kitchen: @member1\n   ðŸš½ WC: @member2\n\nðŸ—“ **Jan 17 - 18**\n   ðŸ³ Kitchen: @member4\n   ðŸš½ WC: @member3\n" := by
  refine ⟨?_, ?_, by decide, by decide⟩
  · intro now p
    unfold keptPairs
    rw [List.mem_filter]
    simp only [Bool.and_eq_true, decide_eq_true_eq]
  · intro now
    exact sortByDelta_sorted _

theorem searchEntries_filter (rs : List RawResult) :
    ∀ seen, searchEntries rs seen
      = searchEntries (rs.filter (fun r => !(effBody r == ""))) seen := by
  induction rs with
  | nil => intro seen; rfl
  | cons r rs ih =>
    intro seen
    by_cases hb : effBody r = ""
    · rw [searchEntries, if_pos hb, List.filter_cons]
      have : (!(effBody r == "")) = false := by simp [hb]
      rw [this]
      simp only [Bool.false_eq_true, if_false]
      exact ih seen
    · rw [searchEntries, if_neg hb, List.filter_cons]
      have : (!(effBody r == "")) = true := by simp [hb]
      rw [this]
      simp only [if_true]
      rw [searchEntries, if_neg hb]
      by_cases hseen : seen.contains (pyTake 20 (effTitle r), pyTake 20 (effBody r))
      · rw [if_pos hseen, if_pos hseen]
        exact ih seen
      · rw [if_neg hseen, if_neg hseen]
        rw [ih _]

theorem searchEntries_shape_mem (rs : List RawResult) :
    ∀ seen e, e ∈ searchEntries rs seen →
      ∃ t b, e = "- " ++ t ++ ": " ++ b ∧ b ≠ "" := by
  induction rs with
  | nil => intro seen e he; simp [searchEntries] at he
  | cons r rs ih =>
    intro seen e he
    by_cases hb : effBody r = ""
    · rw [searchEntries, if_pos hb] at he
      exact ih seen e he
    · rw [searchEntries, if_neg hb] at he
      by_cases hseen : seen.contains (pyTake 20 (effTitle r), pyTake 20 (effBody r))
      · rw [if_pos hseen] at he
        exact ih seen e he
      · rw [if_neg hseen] at he
        rcases List.mem_cons.mp he with h1 | h2
        · exact ⟨effTitle r, effBody r, h1, hb⟩
        · exact ih _ e h2

/-- C10 (counterexample): the claim says a successful SEARCH output has at
most 3 lines, each with a non-empty body after the colon; but a provider
body may itself contain newlines: three two-line bodies produce six lines,
one of which ("b") contains no colon at all. -/
theorem search_lines_counterexample :
    searchFormat [⟨some "t1", some "a\nb", none⟩, ⟨some "t2", some "c\nd", none⟩,
        ⟨some "t3", some "e\nf", none⟩]
      = "- t1: a\nb\n- t2: c\nd\n- t3: e\nf" ∧
    (linesOf "- t1: a\nb\n- t2: c\nd\n- t3: e\nf").length = 6 ∧
    ¬((linesOf "- t1: a\nb\n- t2: c\nd\n- t3: e\nf").length ≤ 3) ∧
    "b" ∈ linesOf "- t1: a\nb\n- t2: c\nd\n- t3: e\nf" ∧
    ':' ∉ ("b" : String).data := by
  refine ⟨by decide, by decide, by decide, by decide, by decide⟩

/-- C10 (amended): results whose effective body (body, falling back to
snippet) is empty are discarded before deduplication even when they have a
title; a successful SEARCH output is either the fixed no-results string or
the newline-join of at most 3 entries, each of the form
`- {title}: {body}` with non-empty body.  (The output has at most 3
physical lines whenever no kept title or body contains a newline; see the
counterexample otherwise.) -/
theorem search_discard_and_entries :
    (∀ (rs : List RawResult) (seen : List (String × String)),
      searchEntries rs seen
        = searchEntries (rs.filter (fun r => !(effBody r == ""))) seen) ∧
    (∀ rs : List RawResult,
      searchFormat rs = "No results found. Nichts." ∨
      (searchFormat rs = joinNl ((searchEntries rs []).take 3) ∧
        ((searchEntries rs []).take 3).length ≤ 3)) ∧
    (∀ (rs : List RawResult) (seen : List (String × String)) (e : String),
      e ∈ searchEntries rs seen →
      ∃ t b, e = "- " ++ t ++ ": " ++ b ∧ b ≠ "") := by
  refine ⟨fun rs seen => searchEntries_filter rs seen, ?_,
    fun rs seen e he => searchEntries_shape_mem rs seen e he⟩
  intro rs
  by_cases hempty : (searchEntries rs []).isEmpty
  · left
    unfold searchFormat
    rw [if_pos hempty]
  · right
    constructor
    · unfold searchFormat
      rw [if_neg hempty]
    · rw [List.length_take]
      omega

/-- Witness for `search_discard_and_entries` at a concrete result list. -/
theorem search_discard_and_entries_witness :
    ∃ t b, ("- t1: b1" : String) = "- " ++ t ++ ": " ++ b ∧ b ≠ "" :=
  search_discard_and_entries.2.2 [⟨some "t1", some "b1", none⟩] [] "- t1: b1"
    (by decide)

theorem safe_edit_not_raised {o : EditOutcome} (h : o ≠ EditOutcome.otherError)
    (chat : Int) (msgId : Nat) (t : String) :
    (safe_edit_message o chat msgId t).2 = false := by
  cases o with
  | ok => rfl
  | badRequest m =>
    by_cases hc : strContains m "Message is not modified"
    · simp [safe_edit_message, hc]
    · simp [safe_edit_message, hc]
  | otherError => exact absurd rfl h

theorem dispatchTool_isSome (env : Env) (chat : Int) (tool arg : String)
    (eidx : Nat) (he : env.editResults eidx ≠ EditOutcome.otherError) :
    (dispatchTool env chat tool arg eidx).1.isSome = true := by
  unfold dispatchTool
  by_cases h1 : tool = "SEARCH"
  · rw [if_pos h1]
    rcases hse : safe_edit_message (env.editResults eidx) chat env.statusMsgId
        ("ðŸ” checking " ++ arg ++ "...") with ⟨e1, b⟩
    have hb : b = false := by
      have hsen := safe_edit_not_raised he chat env.statusMsgId
        ("ðŸ” checking " ++ arg ++ "...")
      rw [hse] at hsen
      exact hsen
    subst hb
    rfl
  · rw [if_neg h1]
    by_cases h2 : tool = "CALC"
    · rw [if_pos h2]
      rfl
    · rw [if_neg h2]
      by_cases h3 : tool = "CHECK_SCHEDULE"
      · rw [if_pos h3]
        rcases hse : safe_edit_message (env.editResults eidx) chat env.statusMsgId
            "ðŸ“… checking roster..." with ⟨e1, b⟩
        have hb : b = false := by
          have hsen := safe_edit_not_raised he chat env.statusMsgId
            "ðŸ“… checking roster..."
          rw [hse] at hsen
          exact hsen
        subst hb
        rfl
      · rw [if_neg h3]
        by_cases h4 : tool = "REMIND"
        · rw [if_pos h4]
          rcases remindParse arg with _ | ⟨m, reason⟩ <;> rfl
        · rw [if_neg h4]
          rfl

theorem loopGo_always_action (env : Env) (chat : Int)
    (hb : ∀ msgs, ∃ r, env.backend msgs = some r ∧
      (findAction (pyStrip r)).isSome = true)
    (he : ∀ i, env.editResults i ≠ EditOutcome.otherError) :
    ∀ (fuel : Nat) (msgs : List Turn) (calls eidx : Nat) (effs : List Effect),
      (loopGo env chat fuel msgs calls eidx effs).final = "cooked." ∧
      (loopGo env chat fuel msgs calls eidx effs).calls = calls + fuel := by
  intro fuel
  induction fuel with
  | zero => intro msgs calls eidx effs; exact ⟨rfl, rfl⟩
  | succ f ih =>
    intro msgs calls eidx effs
    obtain ⟨r, hr, hact⟩ := hb msgs
    obtain ⟨⟨tool, argRaw⟩, hfa⟩ := Option.isSome_iff_exists.mp hact
    rcases hd : dispatchTool env chat tool (pyStrip argRaw) eidx with ⟨ob, e1, eidx'⟩
    have hob : ob.isSome = true := by
      have := dispatchTool_isSome env chat tool (pyStrip argRaw) eidx (he eidx)
      rw [hd] at this
      exact this
    obtain ⟨obs, hobs⟩ := Option.isSome_iff_exists.mp hob
    subst hobs
    have hred : loopGo env chat (f + 1) msgs calls eidx effs
        = loopGo env chat f
            (msgs ++ [⟨"assistant", pyStrip r⟩, ⟨"user", "OBSERVATION: " ++ obs⟩])
            (calls + 1) eidx' (effs ++ e1) := by
      rw [loopGo, hr]
      simp only [hfa, hd]
    rw [hred]
    refine ⟨(ih _ _ _ _).1, ?_⟩
    rw [(ih _ _ _ _).2]
    omega

/-- C9: a model backend that always returns a reply containing an action
directive drives one invocation of the agent loop to exactly MAX_STEPS = 5
model calls, after which it terminates with the fixed default final text
(termination is structural: the loop is bounded by its step budget).  The
transport hypothesis says the status edits do not raise a
non-`BadRequest` exception, which would abort the loop early through the
handler's `except`. -/
theorem loop_exhaustion_five_calls (env : Env) (chat : Int) (msgs : List Turn)
    (hb : ∀ ms, ∃ r, env.backend ms = some r ∧
      (findAction (pyStrip r)).isSome = true)
    (he : ∀ i, env.editResults i ≠ EditOutcome.otherError) :
    (loopGo env chat 5 msgs 0 0 []).calls = 5 ∧
    (loopGo env chat 5 msgs 0 0 []).final = "cooked." :=
  ⟨(loopGo_always_action env chat hb he 5 msgs 0 0 []).2,
   (loopGo_always_action env chat hb he 5 msgs 0 0 []).1⟩

/-- Witness for `loop_exhaustion_five_calls` at a concrete always-action
backend. -/
theorem loop_exhaustion_five_calls_witness :
    (loopGo cEnvAction 1 5 [systemTurn] 0 0 []).calls = 5 ∧
    (loopGo cEnvAction 1 5 [systemTurn] 0 0 []).final = "cooked." :=
  loop_exhaustion_five_calls cEnvAction 1 [systemTurn]
    (fun _ => ⟨"ACTION: CALC 1+1", rfl, by decide⟩)
    (fun _ h => EditOutcome.noConfusion h)

/-- C1 (counterexample): with a backend that replies "ACTION: CALC 1+1" on
every call, the loop exhausts its five steps and the delivered text is the
fixed default "cooked." — not the most recent model text verbatim, and not
its leak substitution either (that would be "Done. Alles gut.", since the
text contains "ACTION:"). -/
theorem exhaustion_default_counterexample :
    cEnvAction.backend [] = some "ACTION: CALC 1+1" ∧
    (loopGo cEnvAction 1 5 [systemTurn] 0 0 []).final = "cooked." ∧
    (handle_message cEnvAction (some ⟨some "hi", 1, true, none⟩)
        ⟨none, fun _ => []⟩).2
      = [Effect.sendMsg 1 statusText, Effect.editMsg 1 7 "cooked."] ∧
    ("cooked." : String) ≠ "ACTION: CALC 1+1" ∧
    leakGuard "ACTION: CALC 1+1" = "Done. Alles gut." ∧
    ("cooked." : String) ≠ "Done. Alles gut." := by
  refine ⟨rfl, by decide, by decide, by decide, by decide, by decide⟩

/-- C1 (amended): whenever all five model replies contain an action
directive (and the status edits do not raise), the final reply after the
loop exhausts is the fixed default "cooked.", which the subsequent
"ACTION:" leak substitution leaves unchanged — the most recent model text
is discarded. -/
theorem exhaustion_default_reply (env : Env) (chat : Int) (msgs : List Turn)
    (hb : ∀ ms, ∃ r, env.backend ms = some r ∧
      (findAction (pyStrip r)).isSome = true)
    (he : ∀ i, env.editResults i ≠ EditOutcome.otherError) :
    (loopGo env chat 5 msgs 0 0 []).final = "cooked." ∧
    leakGuard (loopGo env chat 5 msgs 0 0 []).final = "cooked." := by
  have h := loopGo_always_action env chat hb he 5 msgs 0 0 []
  refine ⟨h.1, ?_⟩
  rw [h.1]
  decide

/-- Witness for `exhaustion_default_reply` at a concrete always-action
backend. -/
theorem exhaustion_default_reply_witness :
    (loopGo cEnvAction 2 5 [systemTurn] 0 0 []).final = "cooked." ∧
    leakGuard (loopGo cEnvAction 2 5 [systemTurn] 0 0 []).final = "cooked." :=
  exhaustion_default_reply cEnvAction 2 [systemTurn]
    (fun _ => ⟨"ACTION: CALC 1+1", rfl, by decide⟩)
    (fun _ h => EditOutcome.noConfusion h)

/-- C4 (counterexample): a group message with no mention of the agent's
handle and no reply to the agent fails the admission test and produces no
outbound effects — yet handling it changes program state: the announcement
target is assigned before the admission check, so it becomes the message's
chat. -/
theorem announce_update_counterexample :
    isDirect cEnvPlain ⟨some "hello", 42, false, none⟩ (pyStrip "hello") = false ∧
    (handle_message cEnvPlain (some ⟨some "hello", 42, false, none⟩)
        ⟨none, fun _ => []⟩).2 = [] ∧
    (handle_message cEnvPlain (some ⟨some "hello", 42, false, none⟩)
        ⟨none, fun _ => []⟩).1.announce = some 42 ∧
    (some 42 : Option Int) ≠ (none : Option Int) := by
  refine ⟨by decide, by decide, by decide, by decide⟩

/-- C4 (amended): every non-admitted inbound text message yields zero
outbound effects and leaves the session memory untouched, but sets the
announcement target to the message's chat id — the target is updated on
every inbound text message, admitted or not. -/
theorem nonadmitted_frame (env : Env) (m : Msg) (st : HState) (rawText : String)
    (htext : m.text = some rawText) (hne : rawText ≠ "")
    (hdir : isDirect env m (pyStrip rawText) = false) :
    handle_message env (some m) st = (⟨some m.chatId, st.memory⟩, []) := by
  unfold handle_message
  dsimp only
  rw [htext]
  dsimp only
  rw [if_neg hne, hdir]
  simp only [Bool.not_false, if_true]

/-- Witness for `nonadmitted_frame` at a concrete group message. -/
theorem nonadmitted_frame_witness :
    handle_message cEnvPlain (some ⟨some "hey all", 42, false, none⟩)
        ⟨some 5, fun _ => []⟩
      = (⟨some 42, (⟨some 5, fun _ => []⟩ : HState).memory⟩, []) :=
  nonadmitted_frame cEnvPlain ⟨some "hey all", 42, false, none⟩
    ⟨some 5, fun _ => []⟩ "hey all" rfl (by decide) (by decide)

theorem handle_message_admitted (env : Env) (m : Msg) (st : HState)
    (rawText : String) (htext : m.text = some rawText) (hne : rawText ≠ "")
    (hdir : isDirect env m (pyStrip rawText) = true) :
    handle_message env (some m) st =
      (match safe_edit_message (env.editResults (loopOf env m st rawText).editIdx)
          m.chatId env.statusMsgId (leakGuard (loopOf env m st rawText).final) with
       | (_, true) =>
         (⟨some m.chatId, update_memory st.memory m.chatId "user" (pyStrip rawText)⟩,
           Effect.sendMsg m.chatId statusText ::
             ((loopOf env m st rawText).effects
               ++ [Effect.sendMsg m.chatId (leakGuard (loopOf env m st rawText).final)]))
       | (effsE, false) =>
         (⟨some m.chatId,
            update_memory (update_memory st.memory m.chatId "user" (pyStrip rawText))
              m.chatId "assistant" (leakGuard (loopOf env m st rawText).final)⟩,
           Effect.sendMsg m.chatId statusText ::
             ((loopOf env m st rawText).effects ++ effsE))) := by
  unfold handle_message loopOf
  dsimp only
  rw [htext]
  dsimp only
  rw [if_neg hne, hdir]
  simp only [Bool.not_true, Bool.false_eq_true, if_false]

/-- C6 (counterexample): with a transport whose final edit fails with
`BadRequest("Chat not found")` — not the "content unchanged" condition —
no fallback message is sent: the failure is logged and swallowed inside
`safe_edit_message`, so the final text "ok final" is never delivered. -/
theorem edit_fallback_counterexample :
    (handle_message cEnvBadEdit (some ⟨some "hi", 1, true, none⟩)
        ⟨none, fun _ => []⟩).2
      = [Effect.sendMsg 1 statusText,
         Effect.logWarning "Edit failed: Chat not found"] ∧
    Effect.sendMsg 1 "ok final" ∉
      (handle_message cEnvBadEdit (some ⟨some "hi", 1, true, none⟩)
        ⟨none, fun _ => []⟩).2 := by
  refine ⟨by decide, by decide⟩

/-- C6 (amended): an edit failure propagates out of `safe_edit_message` —
and thus triggers the handler's fallback send of the final text — exactly
when it is not a `BadRequest`; a `BadRequest` other than "Message is not
modified" is logged and swallowed, so the delivery produces no fallback
send and the final text is not delivered. -/
theorem edit_failure_fallback (env : Env) (m : Msg) (st : HState)
    (rawText : String) (htext : m.text = some rawText) (hne : rawText ≠ "")
    (hdir : isDirect env m (pyStrip rawText) = true) :
    (∀ (o : EditOutcome) (c : Int) (mid : Nat) (t : String),
      (safe_edit_message o c mid t).2 = true ↔ o = EditOutcome.otherError) ∧
    (env.editResults (loopOf env m st rawText).editIdx = EditOutcome.otherError →
      (handle_message env (some m) st).2
        = Effect.sendMsg m.chatId statusText ::
            ((loopOf env m st rawText).effects
              ++ [Effect.sendMsg m.chatId
                    (leakGuard (loopOf env m st rawText).final)])) ∧
    (∀ s : String,
      env.editResults (loopOf env m st rawText).editIdx = EditOutcome.badRequest s →
      (handle_message env (some m) st).2
        = Effect.sendMsg m.chatId statusText ::
            ((loopOf env m st rawText).effects
              ++ (safe_edit_message (EditOutcome.badRequest s) m.chatId
                    env.statusMsgId
                    (leakGuard (loopOf env m st rawText).final)).1)) := by
  refine ⟨?_, ?_, ?_⟩
  · intro o c mid t
    cases o with
    | ok => simp [safe_edit_message]
    | badRequest s =>
      by_cases hc : strContains s "Message is not modified" <;>
        simp [safe_edit_message, hc]
    | otherError => simp [safe_edit_message]
  · intro ho
    rw [handle_message_admitted env m st rawText htext hne hdir, ho]
    rfl
  · intro s hs
    rw [handle_message_admitted env m st rawText htext hne hdir, hs]
    by_cases hc : strContains s "Message is not modified" = true
    · simp only [safe_edit_message, hc, if_true]
    · simp only [safe_edit_message, hc, if_false]
      rfl

/-- Witness for `edit_failure_fallback`: the swallowed-`BadRequest` part at
a concrete admitted message. -/
theorem edit_failure_fallback_witness :
    (handle_message cEnvBadEdit (some ⟨some "hi", 1, true, none⟩)
        ⟨none, fun _ => []⟩).2
      = Effect.sendMsg 1 statusText ::
          ((loopOf cEnvBadEdit ⟨some "hi", 1, true, none⟩ ⟨none, fun _ => []⟩ "hi").effects
            ++ (safe_edit_message (EditOutcome.badRequest "Chat not found") 1
                  cEnvBadEdit.statusMsgId
                  (leakGuard (loopOf cEnvBadEdit ⟨some "hi", 1, true, none⟩
                    ⟨none, fun _ => []⟩ "hi").final)).1) :=
  (edit_failure_fallback cEnvBadEdit ⟨some "hi", 1, true, none⟩
      ⟨none, fun _ => []⟩ "hi" rfl (by decide) (by decide)).2.2
    "Chat not found" (by decide)

end BotBro
